import Mathlib

/-!
Verification development for the AI-ImpactUK analysis pipeline
(`backend/main.py`, `backend/llm.py`, `backend/schemas.py`).

The Python code is shallowly embedded: dynamic Python values are the
inductive `PyVal`; Python dicts are association lists; operations that can
raise (`len`, `.strip()`, `in`, iteration) return `Option`, with
`Option.none` standing for a raised exception.  Floating point scores and
temperatures are modelled as rationals.
-/

set_option maxHeartbeats 1000000

namespace AIUK

/-- A dynamic Python value.  Numeric literals are modelled as `Int` and
Python floats as rationals. -/
inductive PyVal where
  | none
  | bool (b : Bool)
  | int (n : Int)
  | rat (q : ℚ)
  | str (s : String)
  | list (xs : List PyVal)
  | dict (entries : List (String × PyVal))
deriving Repr

/-! ### Character-list string primitives

The byte-position-based core string functions (`String.trim`,
`String.toLower`, …) do not reduce inside the kernel, so the Python string
methods are modelled over the character list, which both computes and
supports proofs (e.g. idempotence of `strip`). -/

/-- Python `str.strip()`: whitespace removed from both ends. -/
def stripStr (s : String) : String :=
  String.mk (((s.toList.dropWhile Char.isWhitespace).reverse.dropWhile
    Char.isWhitespace).reverse)

/-- Python `str.lower()`. -/
def lowerStr (s : String) : String :=
  String.mk (s.toList.map Char.toLower)

/-- Python `str.upper()`. -/
def upperStr (s : String) : String :=
  String.mk (s.toList.map Char.toUpper)

/-- Python `str.startswith(pre)`. -/
def startsWithStr (s pre : String) : Bool :=
  pre.toList.isPrefixOf s.toList

/-- Python `s[:n]` (by characters). -/
def takeStr (s : String) (n : Nat) : String :=
  String.mk (s.toList.take n)

/-- Python code-point lexicographic `<=` on strings (used by `sorted`). -/
def charListLe : List Char → List Char → Bool
  | [], _ => true
  | _ :: _, [] => false
  | a :: as, b :: bs => if a < b then true else if b < a then false else charListLe as bs

def strLe (a b : String) : Bool := charListLe a.toList b.toList

/-- A Python dict with string keys, as an association list. -/
abbrev Dict := List (String × PyVal)

/-- Lookup of a key in a dict (`d[k]` when present). -/
def dictGet? (d : Dict) (k : String) : Option PyVal :=
  (d.find? (fun e => e.1 == k)).map (·.2)

/-- Python `d.get(k)` / `d.get(k, None)`: a missing key yields `None`. -/
def pyGet (d : Dict) (k : String) : PyVal :=
  (dictGet? d k).getD .none

/-- Python `d.get(k, default)`. -/
def pyGetD (d : Dict) (k : String) (v : PyVal) : PyVal :=
  (dictGet? d k).getD v

/-- Python `k in d` for a dict. -/
def hasKey (d : Dict) (k : String) : Bool :=
  d.any (fun e => e.1 == k)

/-- Python truthiness. -/
def truthy : PyVal → Bool
  | .none => false
  | .bool b => b
  | .int n => n != 0
  | .rat q => q != 0
  | .str s => s != ""
  | .list xs => !xs.isEmpty
  | .dict d => !d.isEmpty

/-- Python `a or b` (value-returning, short-circuit on truthiness). -/
def pyOr (a b : PyVal) : PyVal :=
  if truthy a then a else b

/-- Python `str(...)`.  Rendering of nested containers is approximate
(quoting details differ); no result below depends on how containers or
rationals are rendered. -/
def pyStr : PyVal → String
  | .none => "None"
  | .bool true => "True"
  | .bool false => "False"
  | .int n => toString n
  | .rat q => toString q
  | .str s => s
  | .list _ => "[...]"
  | .dict _ => "\x7b...\x7d"

mutual
/-- Python `==`: numbers (`bool`/`int`/`float`) compare by value across
types; values of unrelated types compare unequal. -/
def pyEq : PyVal → PyVal → Bool
  | .none, .none => true
  | .bool a, .bool b => a == b
  | .bool a, .int n => (if a then (1 : Int) else 0) == n
  | .int n, .bool a => n == (if a then (1 : Int) else 0)
  | .bool a, .rat q => (if a then (1 : ℚ) else 0) == q
  | .rat q, .bool a => q == (if a then (1 : ℚ) else 0)
  | .int m, .int n => m == n
  | .int m, .rat q => (m : ℚ) == q
  | .rat q, .int m => q == (m : ℚ)
  | .rat p, .rat q => p == q
  | .str s, .str t => s == t
  | .list xs, .list ys => pyEqList xs ys
  | .dict xs, .dict ys => pyEqDict xs ys
  | _, _ => false

def pyEqList : List PyVal → List PyVal → Bool
  | [], [] => true
  | x :: xs, y :: ys => pyEq x y && pyEqList xs ys
  | _, _ => false

/-- Python dict equality is key-set based; modelled entry-wise in order,
which agrees on the dicts arising here. -/
def pyEqDict : List (String × PyVal) → List (String × PyVal) → Bool
  | [], [] => true
  | (ka, va) :: xs, (kb, vb) :: ys => ka == kb && pyEq va vb && pyEqDict xs ys
  | _, _ => false
end

/-- Python `len(...)`: defined for strings, lists and dicts, raises
(`Option.none`) otherwise. -/
def pyLen : PyVal → Option Int
  | .str s => some s.length
  | .list xs => some xs.length
  | .dict d => some d.length
  | _ => Option.none

/-- Python `.strip()`: a `str` method; raises on any other value. -/
def pyStrip : PyVal → Option String
  | .str s => some (stripStr s)
  | _ => Option.none

/-- Python `.lower()`: a `str` method; raises on any other value. -/
def pyLower : PyVal → Option String
  | .str s => some (lowerStr s)
  | _ => Option.none

/-- Python `n < v` with an `int` left operand; comparison against a
non-numeric right operand raises. -/
def pyLtInt (n : Int) : PyVal → Option Bool
  | .int m => some (decide (n < m))
  | .bool b => some (decide (n < (if b then 1 else 0)))
  | .rat q => some (decide ((n : ℚ) < q))
  | _ => Option.none

/-- Python iteration: lists yield their elements, strings their
one-character substrings, dicts their keys; other values raise. -/
def pyIter : PyVal → Option (List PyVal)
  | .list xs => some xs
  | .str s => some (s.toList.map (fun c => .str (String.mk [c])))
  | .dict d => some (d.map (fun e => .str e.1))
  | _ => Option.none

/-- Substring test (`sub in s` for strings). -/
def strContainsSub (s sub : String) : Bool :=
  s.toList.tails.any (fun t => sub.toList.isPrefixOf t)

/-- Python `x in c`: `==`-membership for lists, key membership for dicts,
substring test for strings (raising when `x` is not a string); raises on
non-container values. -/
def pyIn (x c : PyVal) : Option Bool :=
  match c with
  | .list ys => some (ys.any (fun y => pyEq x y))
  | .dict d => some (d.any (fun e => pyEq (.str e.1) x))
  | .str s =>
    match x with
    | .str t => some (strContainsSub s t)
    | _ => Option.none
  | _ => Option.none

/-- `_ci_equals` (main.py): case-insensitive equality, false whenever
either side is not a string. -/
def _ci_equals (a b : PyVal) : Bool :=
  match a, b with
  | .str sa, .str sb => lowerStr (stripStr sa) == lowerStr (stripStr sb)
  | _, _ => false

namespace Backend

/-- `_coerce_severity` (main.py). -/
def _coerce_severity (val : PyVal) : String :=
  let v := lowerStr (stripStr (pyStr (pyOr val (.str "green"))))
  if startsWithStr v "r" then "red"
  else if startsWithStr v "a" then "amber"
  else "green"

end Backend

namespace Llm

/-- `_coerce_severity` (llm.py): same first-letter mapping, but the falsy
default is the empty string. -/
def _coerce_severity (val : PyVal) : String :=
  let v := lowerStr (stripStr (pyStr (pyOr val (.str ""))))
  if startsWithStr v "r" then "red"
  else if startsWithStr v "a" then "amber"
  else "green"

end Llm

/-! ## Rule engine (`evaluate_rule`, main.py)

Each trigger block clause of `evaluate_rule` is one *check*.  A check can
raise a Python exception, short-circuit with `return False`, or fall
through, appending human-readable reasons.  The rule fires iff every check
falls through and at least one reason was recorded (`return bool(reasons)`).
The reason strings below paraphrase the source's f-strings; only their
presence (not their text) affects the result. -/

/-- Outcome of a single trigger check inside `evaluate_rule`. -/
inductive Chk where
  | exc
  | fail
  | ok (rs : List String)
deriving Repr, DecidableEq

def Chk.isOk : Chk → Bool
  | .ok _ => true
  | _ => false

/-- Run the checks in order: the first exception aborts evaluation, the
first failing check yields `return False`, otherwise the rule fires iff
some reason was recorded. -/
def runChecks (acc : List String) : List Chk → Option Bool
  | [] => some (!acc.isEmpty)
  | c :: cs =>
    match c with
    | .exc => Option.none
    | .fail => some false
    | .ok rs => runChecks (acc ++ rs) cs

/-- Lift an `Option Bool` condition: an exception propagates, a true
condition records `msg`, a false one fails the rule. -/
def condChk (c : Option Bool) (msg : String) : Chk :=
  match c with
  | Option.none => .exc
  | some true => .ok [msg]
  | some false => .fail

/-- A check guarded by its trigger gate: when the gate is off the source
skips the whole block. -/
def gated (g : Bool) (k : Chk) : Chk :=
  if g then k else .ok []

def chk_description_min_length (trig payload : Dict) : Chk :=
  gated (hasKey trig "description_min_length") <|
    condChk (do
        let desc := pyOr (pyGet payload "description") (.str "")
        let l ← pyLen desc
        pyLtInt l (pyGet trig "description_min_length"))
      "description length below minimum"

def chk_title_missing (trig payload : Dict) : Chk :=
  gated (truthy (pyGet trig "title_missing")) <|
    condChk (do
        let s ← pyStrip (pyOr (pyGet payload "title") (.str ""))
        pure (s == ""))
      "title is missing"

def chk_model_type (trig payload : Dict) : Chk :=
  gated (hasKey trig "model_type") <|
    let expected := pyGet trig "model_type"
    let actual := pyOr (pyGet payload "model_type") (.str "")
    let matched :=
      match expected with
      | .list es => es.any (fun e => _ci_equals e actual)
      | _ => _ci_equals expected actual
    if matched then .ok ["model_type matches expected"] else .fail

def chk_data_types (trig payload : Dict) : Chk :=
  gated (hasKey trig "data_types") <|
    let expected := pyGet trig "data_types"
    let actual := pyOr (pyGet payload "data_types") (.list [])
    if pyEq expected (.list []) then
      (if !truthy actual then .ok ["no data_types specified"] else .fail)
    else
      condChk (do
          let es ← pyIter expected
          es.anyM (fun dt => pyIn dt actual))
        "data_types intersects expected"

def chk_special_category_data (trig payload : Dict) : Chk :=
  gated (truthy (pyGet trig "special_category_data")) <|
    match pyGet payload "special_category_data" with
    | .bool true => .ok ["special-category data processed"]
    | _ => .fail

def chk_processes_personal_data (trig payload : Dict) : Chk :=
  gated (truthy (pyGet trig "processes_personal_data")) <|
    match pyGet payload "processes_personal_data" with
    | .bool true => .ok ["personal data processed"]
    | _ => .fail

def chk_privacy_techniques (trig payload : Dict) : Chk :=
  gated (hasKey trig "privacy_techniques") <|
    condChk (do
        let actual := pyOr (pyGet payload "privacy_techniques") (.list [])
        if !truthy actual then pure true
        else do
          let xs ← pyIter actual
          pure (xs.any (fun t => _ci_equals t (.str "None"))))
      "privacy techniques missing or explicitly none"

def chk_explainability_tooling_missing (trig payload : Dict) : Chk :=
  gated (truthy (pyGet trig "explainability_tooling_missing")) <|
    condChk (do
        let s ← pyStrip (pyOr (pyGet payload "explainability_tooling") (.str ""))
        pure (s == ""))
      "explainability tooling missing"

def chk_interpretability_not_rated (trig payload : Dict) : Chk :=
  gated (truthy (pyGet trig "interpretability_not_rated")) <|
    let rating := pyGet payload "interpretability_rating"
    let inTuple := pyEq rating .none || pyEq rating (.str "")
    let strBlank := match rating with | .str s => stripStr s == "" | _ => false
    if inTuple || strBlank then .ok ["interpretability not rated"] else .fail

def chk_fairness_definition_missing (trig payload : Dict) : Chk :=
  gated (truthy (pyGet trig "fairness_definition_missing")) <|
    if !truthy (pyGet payload "fairness_definition") then
      .ok ["fairness definition missing"]
    else .fail

def chk_accountable_owner_missing (trig payload : Dict) : Chk :=
  gated (truthy (pyGet trig "accountable_owner_missing")) <|
    condChk (do
        let s ← pyStrip (pyOr (pyGet payload "accountable_owner") (.str ""))
        pure (s == ""))
      "accountable owner missing"

def chk_model_cards_published (trig payload : Dict) : Chk :=
  gated (hasKey trig "model_cards_published") <|
    let expected := pyGet trig "model_cards_published"
    match pyGet payload "model_cards_published" with
    | .bool a =>
      (match expected with
       | .bool e => if a == e then .ok ["model_cards_published matches expected"] else .fail
       | _ => .fail)
    | _ => .fail

def chk_credible_harms_listed (trig payload : Dict) : Chk :=
  gated (truthy (pyGet trig "credible_harms_listed")) <|
    match pyOr (pyGet payload "credible_harms") (.list []) with
    | .list xs => if xs.length > 0 then .ok ["credible harms enumerated"] else .fail
    | _ => .fail

def chk_safety_mitigations (trig payload : Dict) : Chk :=
  gated (hasKey trig "safety_mitigations") <|
    if !truthy (pyOr (pyGet payload "safety_mitigations") (.list [])) then
      .ok ["safety mitigations missing despite listed harms"]
    else .fail

def chk_drift_detection_missing (trig payload : Dict) : Chk :=
  gated (truthy (pyGet trig "drift_detection_missing")) <|
    condChk (do
        let s ← pyStrip (pyOr (pyGet payload "drift_detection") (.str ""))
        pure (s == ""))
      "drift detection strategy missing"

def chk_retraining_cadence (trig payload : Dict) : Chk :=
  gated (hasKey trig "retraining_cadence") <|
    condChk (pyIn (pyOr (pyGet payload "retraining_cadence") (.str ""))
        (pyGet trig "retraining_cadence"))
      "retraining cadence considered low or infrequent"

def chk_pen_test_missing (trig payload : Dict) : Chk :=
  gated (truthy (pyGet trig "pen_test_missing")) <|
    match pyGet payload "penetration_tested" with
    | .bool false => .ok ["penetration or red-team testing missing"]
    | _ => .fail

def chk_domain_threshold_not_met (trig payload : Dict) : Chk :=
  gated (truthy (pyGet trig "domain_threshold_not_met")) <|
    match pyGet payload "domain_threshold_met" with
    | .bool false => .ok ["domain threshold not met"]
    | _ => .fail

def chk_robustness_below_baseline (trig payload : Dict) : Chk :=
  gated (truthy (pyGet trig "robustness_below_baseline")) <|
    match pyGet payload "robustness_above_baseline" with
    | .bool false => .ok ["robustness below baseline"]
    | _ => .fail

def chk_genai_risk_above_baseline (trig payload : Dict) : Chk :=
  gated (truthy (pyGet trig "genai_risk_above_baseline")) <|
    match pyGet payload "generative_risk_above_baseline" with
    | .bool true => .ok ["generative AI risk above baseline"]
    | _ => .fail

def chk_retention_not_defined (trig payload : Dict) : Chk :=
  gated (truthy (pyGet trig "retention_not_defined")) <|
    match pyGet payload "retention_defined" with
    | .bool false => .ok ["data retention not defined"]
    | _ => .fail

def chk_sustainability_estimate_missing (trig payload : Dict) : Chk :=
  gated (truthy (pyGet trig "sustainability_estimate_missing")) <|
    let se := pyOr (pyGet payload "sustainability_estimate") (.str "")
    if stripStr (pyStr se) == "" then .ok ["sustainability estimate missing"] else .fail

def chk_explainability_channels_missing (trig payload : Dict) : Chk :=
  gated (truthy (pyGet trig "explainability_channels_missing")) <|
    match pyOr (pyGet payload "explainability_channels") (.list []) with
    | .list xs =>
      let has := xs.filter (fun c =>
        !(lowerStr (stripStr (pyStr c)) == "none" || lowerStr (stripStr (pyStr c)) == ""))
      if has.isEmpty then .ok ["no explainability surface for stakeholders"] else .fail
    | _ => .fail

def chk_documentation_consumers_includes (trig payload : Dict) : Chk :=
  gated (hasKey trig "documentation_consumers_includes") <|
    condChk (do
        let es ← pyIter (pyGet trig "documentation_consumers_includes")
        let expected := es.map (fun x => lowerStr (stripStr (pyStr x)))
        let gs ← pyIter (pyOr (pyGet payload "documentation_consumers") (.list []))
        let got := gs.map (fun x => lowerStr (stripStr (pyStr x)))
        pure (!expected.any (fun x => got.contains x)))
      "documentation not planned for expected consumers"

def chk_community_reviews_missing_for_personal_data (trig payload : Dict) : Chk :=
  gated (truthy (pyGet trig "community_reviews_missing_for_personal_data")) <|
    match pyGet payload "processes_personal_data", pyGet payload "community_reviews" with
    | .bool true, .bool false => .ok ["no community or affected-group reviews despite personal data"]
    | _, _ => .fail

/-- The trigger keys consumed by the explicit checks above. -/
def handled_keys : List String :=
  ["description_min_length", "title_missing", "model_type", "data_types",
   "special_category_data", "processes_personal_data", "privacy_techniques",
   "explainability_tooling_missing", "interpretability_not_rated",
   "fairness_definition_missing", "accountable_owner_missing",
   "model_cards_published", "credible_harms_listed", "safety_mitigations",
   "drift_detection_missing", "retraining_cadence", "pen_test_missing",
   "domain_threshold_not_met", "robustness_below_baseline",
   "genai_risk_above_baseline", "retention_not_defined",
   "sustainability_estimate_missing", "explainability_channels_missing",
   "documentation_consumers_includes", "community_reviews_missing_for_personal_data"]

/-- `_empty` (main.py): `None`, blank strings, empty containers. -/
def _empty : PyVal → Bool
  | .none => true
  | .str s => stripStr s == ""
  | .list xs => xs.isEmpty
  | .dict d => d.isEmpty
  | _ => false

/-- One iteration of the generic fallback matcher, applied to an
individual `(key, expected)` item of the trigger block. -/
def genericChk (payload : Dict) (item : String × PyVal) : Chk :=
  let k := item.1
  let expected := item.2
  if handled_keys.contains k then .ok []
  else
    let actual := pyGet payload k
    match expected with
    | .list [] =>
      if _empty actual then .ok [k ++ " empty as required"] else .fail
    | .list es =>
      (match actual with
       | .list xs =>
         let aset := xs.map (fun x => lowerStr (stripStr (pyStr x)))
         let eset := es.map (fun x => lowerStr (stripStr (pyStr x)))
         if aset.any (fun a => eset.contains a) then
           .ok [k ++ " intersects expected values"]
         else .fail
       | _ =>
         if es.any (fun e => _ci_equals actual e) then
           .ok [k ++ " equals one of expected values"]
         else .fail)
    | .bool e =>
      (match actual with
       | .bool a => if a == e then .ok [k ++ " matches expected boolean"] else .fail
       | _ => .fail)
    | .str _ =>
      (match actual with
       | .str _ =>
         if _ci_equals actual expected then .ok [k ++ " matches expected string"] else .fail
       | _ =>
         if pyEq actual expected then .ok [k ++ " equals expected"] else .fail)
    | .int _ =>
      if pyEq actual expected then .ok [k ++ " equals expected"] else .fail
    | .rat _ =>
      if pyEq actual expected then .ok [k ++ " equals expected"] else .fail
    | _ => .ok []

/-- A legacy rule record (rules.yaml row).  Fields are `Option PyVal`,
`Option.none` meaning the key is absent; an absent or null `trigger`
normalises to the empty block (`rule.get("trigger", {}) or {}`). -/
structure Rule where
  rid : Option PyVal := Option.none
  trigger : Option Dict := Option.none
  clause : Option PyVal := Option.none
  severity : Option PyVal := Option.none
  reason : Option PyVal := Option.none
  mitigation : Option PyVal := Option.none
deriving Repr

/-- The explicit checks of `evaluate_rule`, in source order. -/
def explicitChecks (trig payload : Dict) : List Chk :=
  [chk_description_min_length trig payload,
   chk_title_missing trig payload,
   chk_model_type trig payload,
   chk_data_types trig payload,
   chk_special_category_data trig payload,
   chk_processes_personal_data trig payload,
   chk_privacy_techniques trig payload,
   chk_explainability_tooling_missing trig payload,
   chk_interpretability_not_rated trig payload,
   chk_fairness_definition_missing trig payload,
   chk_accountable_owner_missing trig payload,
   chk_model_cards_published trig payload,
   chk_credible_harms_listed trig payload,
   chk_safety_mitigations trig payload,
   chk_drift_detection_missing trig payload,
   chk_retraining_cadence trig payload,
   chk_pen_test_missing trig payload,
   chk_domain_threshold_not_met trig payload,
   chk_robustness_below_baseline trig payload,
   chk_genai_risk_above_baseline trig payload,
   chk_retention_not_defined trig payload,
   chk_sustainability_estimate_missing trig payload,
   chk_explainability_channels_missing trig payload,
   chk_documentation_consumers_includes trig payload,
   chk_community_reviews_missing_for_personal_data trig payload]

/-- `evaluate_rule(rule, payload)` (main.py): `some b` is a normal return
of `b`, `Option.none` a raised exception (caught and logged by the
caller's per-rule `try`/`except`). -/
def evaluate_rule (rule : Rule) (payload : Dict) : Option Bool :=
  let trig := rule.trigger.getD []
  runChecks [] (explicitChecks trig payload ++ trig.map (genericChk payload))

/-! ## Facts about the rule engine -/

theorem runChecks_eq_some_true (acc : List String) (cs : List Chk)
    (h : runChecks acc cs = some true) : ∀ c ∈ cs, c.isOk = true := by
  induction cs generalizing acc with
  | nil => intro c hc; simp at hc
  | cons c cs ih =>
    intro c' hc'
    cases c with
    | exc => simp [runChecks] at h
    | fail => simp [runChecks] at h
    | ok rs =>
      rcases List.mem_cons.mp hc' with h1 | h1
      · subst h1; rfl
      · exact ih _ h _ h1

theorem pyGet_mem_of_ne_none (d : Dict) (k : String) (hv : pyGet d k ≠ .none) :
    ∃ e ∈ d, e.1 = k ∧ e.2 = pyGet d k := by
  unfold pyGet dictGet? at *
  cases hf : d.find? (fun e => e.1 == k) with
  | none => rw [hf] at hv; simp at hv
  | some e =>
    refine ⟨e, List.mem_of_find?_eq_some hf, ?_, ?_⟩
    · have := List.find?_some hf
      simpa using this
    · rfl

theorem hasKey_of_mem (d : Dict) (k : String) (e : String × PyVal)
    (he : e ∈ d) (hk : e.1 = k) : hasKey d k = true := by
  unfold hasKey
  exact List.any_eq_true.mpr ⟨e, he, by simp [hk]⟩

/-- C2: for a rule whose trigger block contains an explicit boolean gate —
the `model_cards_published` key, or any key handled by the generic matcher
with a boolean expected value — `evaluate_rule` returns `False` whenever
the gated field is absent/null in the project facts, and whenever the
field is set to the non-matching boolean; only an exact boolean match can
let the rule fire. -/
theorem boolean_gate_strict (rule : Rule) (payload : Dict) (trig : Dict)
    (k : String) (b : Bool) (r : Bool)
    (htrig : rule.trigger = some trig)
    (hgate : pyGet trig k = .bool b)
    (hk : k = "model_cards_published" ∨ handled_keys.contains k = false)
    (hpay : pyGet payload k = .none ∨ pyGet payload k = .bool (!b))
    (heval : evaluate_rule rule payload = some r) :
    r = false := by
  by_contra hr
  have hr' : r = true := by cases r <;> simp_all
  subst hr'
  unfold evaluate_rule at heval
  rw [htrig] at heval
  simp only [Option.getD_some] at heval
  have hall := runChecks_eq_some_true _ _ heval
  have hne : pyGet trig k ≠ .none := by rw [hgate]; intro hc; cases hc
  obtain ⟨e, hmem, hek, hev⟩ := pyGet_mem_of_ne_none trig k hne
  rcases hk with hk | hk
  · subst hk
    have hkey : hasKey trig "model_cards_published" = true :=
      hasKey_of_mem _ _ e hmem hek
    have hmemchk : chk_model_cards_published trig payload ∈
        explicitChecks trig payload ++ trig.map (genericChk payload) := by
      simp [explicitChecks]
    have hok := hall _ hmemchk
    rcases hpay with hp | hp
    · simp [chk_model_cards_published, gated, hkey, hgate, hp, Chk.isOk] at hok
    · cases b <;>
        simp [chk_model_cards_published, gated, hkey, hgate, hp, Chk.isOk] at hok
  · have he2 : e = (k, PyVal.bool b) := by
      cases e with
      | mk k' v' =>
        simp at hek hev
        rw [hek, hev, hgate]
    have hmemchk : genericChk payload (k, PyVal.bool b) ∈
        explicitChecks trig payload ++ trig.map (genericChk payload) := by
      refine List.mem_append.mpr (Or.inr ?_)
      exact List.mem_map.mpr ⟨e, hmem, by rw [he2]⟩
    have hok := hall _ hmemchk
    have hk' : ¬(k ∈ handled_keys) := by simpa using hk
    rcases hpay with hp | hp
    · simp [genericChk, hk', hp, Chk.isOk] at hok
    · cases b <;> simp [genericChk, hk', hp, Chk.isOk] at hok

/-- Witness for C2: a rule gated on `model_cards_published = True` against
an empty facts record evaluates to `False`. -/
theorem boolean_gate_strict_witness :
    evaluate_rule { trigger := some [("model_cards_published", PyVal.bool true)] } [] = some false ∧
    false = false :=
  ⟨rfl,
    boolean_gate_strict { trigger := some [("model_cards_published", PyVal.bool true)] } []
      [("model_cards_published", PyVal.bool true)] "model_cards_published" true false
      rfl rfl (Or.inl rfl) (Or.inl rfl) rfl⟩

/-- C10: a rule whose trigger block is empty (no trigger keys, or the
trigger absent/null) never fires: `evaluate_rule` returns `False` on every
project-facts record, because `return bool(reasons)` sees no recorded
reason. -/
theorem empty_trigger_never_fires (rule : Rule) (payload : Dict)
    (h : rule.trigger = Option.none ∨ rule.trigger = some []) :
    evaluate_rule rule payload = some false := by
  have htrig : rule.trigger.getD [] = [] := by rcases h with h | h <;> simp [h]
  unfold evaluate_rule
  rw [htrig]
  rfl

/-- Witness for C10: a rule with an absent trigger block does not fire on
a non-trivial facts record. -/
theorem empty_trigger_never_fires_witness :
    evaluate_rule { trigger := Option.none } [("title", PyVal.str "t")] = some false :=
  empty_trigger_never_fires { trigger := Option.none } [("title", PyVal.str "t")] (Or.inl rfl)

/-- C8: severity coercion is total over arbitrary values and always lands
in the enumerated set: a value whose (defaulted, stringified, stripped,
lowercased) form starts with "r" maps to "red", one starting with "a" to
"amber", and everything else — including `None`, empty and unparseable
values — to "green".  Both copies of `_coerce_severity` (llm.py and
main.py) are covered; they differ only in the falsy default, which itself
lands on "green". -/
theorem coerce_severity_enum (val : PyVal) :
    Backend._coerce_severity val ∈ (["red", "amber", "green"] : List String)
    ∧ Llm._coerce_severity val ∈ (["red", "amber", "green"] : List String)
    ∧ (Backend._coerce_severity val =
        (let v := lowerStr (stripStr (pyStr (pyOr val (.str "green"))))
         if startsWithStr v "r" then "red"
         else if startsWithStr v "a" then "amber" else "green"))
    ∧ (Llm._coerce_severity val =
        (let v := lowerStr (stripStr (pyStr (pyOr val (.str ""))))
         if startsWithStr v "r" then "red"
         else if startsWithStr v "a" then "amber" else "green")) := by
  have h1 : ∀ s : String,
      (if startsWithStr s "r" then "red"
       else if startsWithStr s "a" then "amber" else "green") ∈
        (["red", "amber", "green"] : List String) := by
    intro s
    split
    · simp
    · split <;> simp
  exact ⟨h1 _, h1 _, rfl, rfl⟩

/-! ## Data model (schemas.py) -/

/-- `PolicyClause` (schemas.py): one corpus entry. -/
structure PolicyClause where
  id : String
  label : String
  text : String
  link : Option String := Option.none
  category : Option String := Option.none
  document : Option String := Option.none
  framework : Option String := Option.none
  phase : Option String := Option.none
deriving Repr, DecidableEq

/-- `SearchHit` (schemas.py): one retrieval result; the score is a cosine
similarity, modelled as a rational. -/
structure SearchHit where
  clause_id : String
  score : ℚ
  snippet : Option String := Option.none
  clause : PolicyClause
deriving Repr, DecidableEq

/-- `Flag` (schemas.py): the unit of output.  `severity` is constrained to
the `red`/`amber`/`green` literals by `pydanticFlag` below. -/
structure Flag where
  id : String
  clause : String
  severity : String := "green"
  reason : String
  mitigation : Option String := Option.none
  evidence : Option String := Option.none
  model : Option String := Option.none
  meta : Option Dict := Option.none
deriving Repr

/-! ## Generative flag client (llm.py) -/

/-- Environment defaults (`OLLAMA_*`). -/
def OLLAMA_MODEL : String := "llama3.1:8b-instruct"

def OLLAMA_TEMPERATURE : ℚ := 1/5

/-- The arguments of one inference call that vary between attempts. -/
structure GenCall where
  system : String
  prompt : String
  temperature : ℚ
deriving Repr, DecidableEq

/-- The HTTP + JSON-decoding boundary of `_call_once`: `Option.none` is a
raised transport/HTTP error (`requests.post` / `raise_for_status` /
`r.json()`); `some parsed` is a successful response whose `response` text
went through `json.loads` and, on failure, `_extract_any_json` —
`parsed = Option.none` when no JSON could be extracted. -/
abbrev InferenceOracle := GenCall → Option (Option PyVal)

/-- `_normalise_flag` (llm.py).  Raises (skipping the whole batch) when a
truthy non-string `reason` is stripped. -/
def _normalise_flag (d : Dict) : Option Dict := do
  let idv := pyOr (pyGet d "id") (pyOr (pyGet d "clause") (.str ""))
  let clausev := pyOr (pyGet d "clause") (pyOr (pyGet d "id") (.str ""))
  let reason ← pyStrip (pyOr (pyGet d "reason") (.str ""))
  pure [("id", .str (stripStr (pyStr idv))),
        ("clause", .str (stripStr (pyStr clausev))),
        ("severity", .str (Llm._coerce_severity (pyGet d "severity"))),
        ("reason", .str reason),
        ("mitigation", pyGetD d "mitigation" .none),
        ("evidence", pyGetD d "evidence" .none),
        ("model", .str OLLAMA_MODEL),
        ("meta", pyGetD d "meta" .none)]

/-- `_ensure_flags_container` (llm.py): accept a bare array or an object
with a `flags` array; anything else yields no flags. -/
def _ensure_flags_container : Option PyVal → List PyVal
  | some (.list xs) => xs
  | some (.dict d) =>
    (match dictGet? d "flags" with
     | some (.list xs) => xs
     | _ => [])
  | _ => []

/-- The fixed prompt wrapper built in `generate_flags`. -/
def mkPrompt (user json_schema_hint : String) : String :=
  user ++ "\n\nFollow this JSON schema strictly:\n" ++ json_schema_hint
       ++ "\n\nReturn ONLY JSON (no extra text)."

/-- `_call_once` (llm.py): one inference call; non-dict items are dropped
before normalisation, and normalisation errors propagate. -/
def _call_once (oracle : InferenceOracle) (system prompt : String) (temp : ℚ) :
    Option (List Dict) := do
  let parsed ← oracle ⟨system, prompt, temp⟩
  let flags := _ensure_flags_container parsed
  (flags.filterMap (fun x => match x with | .dict d => some d | _ => Option.none)).mapM
    _normalise_flag

/-- The system-prompt strengthening of the retry attempt (llm.py). -/
def retrySystemSuffix : String :=
  "\nBe decisive. If evidence is partial, emit AMBER with a concise because-explanation and a concrete mitigation. If clearly compliant, emit GREEN with a short justification."

/-- The user-prompt strengthening of the retry attempt (llm.py). -/
def retryUserSuffix : String :=
  "\nIf you cannot find any issues, still emit at least one GREEN item that explains why."

/-- `generate_flags` with `retry_on_empty=False`: a single attempt, no
retry.  The source expresses this as a recursive call with the flag
cleared; the recursion depth is 1 by construction, so it is unrolled here
into this non-recursive instance.  The second component records the
inference calls issued (instrumentation used by the theorems; not part of
the source return value). -/
def generate_flagsF (oracle : InferenceOracle) (system user json_schema_hint : String)
    (temperature : Option ℚ) : Option (List Dict) × List GenCall :=
  let t := temperature.getD OLLAMA_TEMPERATURE
  let prompt := mkPrompt user json_schema_hint
  match _call_once oracle system prompt t with
  | Option.none => (Option.none, [⟨system, prompt, t⟩])
  | some flags => (some flags, [⟨system, prompt, t⟩])

/-- `generate_flags` (llm.py): one attempt; when `retry_on_empty` is set
and no flags were produced, exactly one retry with strengthened prompts
and temperature `max(0.3, t + 0.1)`, itself not retried. -/
def generate_flags (oracle : InferenceOracle) (system user json_schema_hint : String)
    (temperature : Option ℚ) (retry_on_empty : Bool) :
    Option (List Dict) × List GenCall :=
  let t := temperature.getD OLLAMA_TEMPERATURE
  let prompt := mkPrompt user json_schema_hint
  match _call_once oracle system prompt t with
  | Option.none => (Option.none, [⟨system, prompt, t⟩])
  | some flags =>
    if retry_on_empty && flags.isEmpty then
      let r := generate_flagsF oracle (system ++ retrySystemSuffix)
        (user ++ retryUserSuffix) json_schema_hint
        (some (max (3/10 : ℚ) (t + 1/10)))
      (r.1, ⟨system, prompt, t⟩ :: r.2)
    else (some flags, [⟨system, prompt, t⟩])

/-- The single-attempt instance always issues exactly one inference call. -/
theorem generate_flagsF_one_call (oracle : InferenceOracle)
    (s u hint : String) (t : Option ℚ) :
    (generate_flagsF oracle s u hint t).2.length = 1 := by
  simp only [generate_flagsF]
  split <;> rfl

/-- C4: with `retry_on_empty` true, `generate_flags` makes at most two
inference calls.  A first attempt yielding at least one flag is never
retried; a first attempt yielding zero flags is retried exactly once, with
the fixed system/user suffixes appended and temperature
`max(0.3, first_temperature + 0.1)`, and the retry itself
(`retry_on_empty=False`) performs exactly one call. -/
theorem generate_flags_retry_once (oracle : InferenceOracle)
    (system user hint : String) (temperature : Option ℚ) :
    (generate_flags oracle system user hint temperature true).2.length ≤ 2
    ∧ (∀ flags, flags ≠ [] →
        _call_once oracle system (mkPrompt user hint)
            (temperature.getD OLLAMA_TEMPERATURE) = some flags →
        generate_flags oracle system user hint temperature true =
          (some flags,
           [⟨system, mkPrompt user hint, temperature.getD OLLAMA_TEMPERATURE⟩]))
    ∧ (_call_once oracle system (mkPrompt user hint)
          (temperature.getD OLLAMA_TEMPERATURE) = some [] →
        generate_flags oracle system user hint temperature true =
          (let r := generate_flagsF oracle (system ++ retrySystemSuffix)
              (user ++ retryUserSuffix) hint
              (some (max (3/10 : ℚ) (temperature.getD OLLAMA_TEMPERATURE + 1/10)))
           (r.1,
            ⟨system, mkPrompt user hint, temperature.getD OLLAMA_TEMPERATURE⟩ :: r.2)))
    ∧ (∀ s u tm, (generate_flagsF oracle s u hint tm).2.length = 1) := by
  refine ⟨?_, ?_, ?_, fun s u tm => generate_flagsF_one_call oracle s u hint tm⟩
  · simp only [generate_flags]
    split
    · simp
    · split
      · simp [generate_flagsF_one_call]
      · simp
  · intro flags hne hcall
    simp only [generate_flags, hcall]
    have : flags.isEmpty = false := by
      cases flags with
      | nil => exact absurd rfl hne
      | cons a l => rfl
    simp [this]
  · intro hcall
    simp only [generate_flags, hcall]
    rfl

/-- Witness for C4: a first attempt that parses to zero flags triggers the
single retry, for a total of exactly two inference calls. -/
theorem generate_flags_retry_once_witness :
    (generate_flags (fun _ => some (some (PyVal.dict [("flags", PyVal.list [])])))
      "s" "u" "h" Option.none true).2.length = 2 := by
  have h := (generate_flags_retry_once
    (fun _ => some (some (PyVal.dict [("flags", PyVal.list [])])))
    "s" "u" "h" Option.none).2.2.1 rfl
  rw [h]
  rfl

/-! ## Metadata enrichment and flag validation (main.py) -/

/-- `_infer_phase` (main.py): keyword heuristics over category, label and
text, with a framework-based fallback. -/
def _infer_phase (c : PolicyClause) : String :=
  let cat := lowerStr (c.category.getD "")
  let lab := lowerStr c.label
  let txt := cat ++ " " ++ lab ++ " " ++ lowerStr c.text
  let data_kw := ["data", "privacy", "personal", "retention", "consent",
    "provenance", "access control", "collection", "minimisation"]
  let model_kw := ["fairness", "bias", "explain", "interpret", "transparen",
    "accuracy", "robust", "testing", "validation", "documentation", "model card"]
  let deploy_kw := ["monitor", "incident", "security", "ops", "operation",
    "post", "drift", "change", "audit", "retraining", "deployment"]
  let has_any := fun (ws : List String) => ws.any (fun w => strContainsSub txt w)
  if has_any data_kw then "data"
  else if has_any model_kw then "model"
  else if has_any deploy_kw then "deployment"
  else
    let fw := upperStr (c.framework.getD "")
    if fw == "ICO" then "data"
    else if fw == "DSIT" then "model"
    else "deployment"

def optStrVal : Option String → PyVal
  | Option.none => .none
  | some s => .str s

/-- `c.phase or _infer_phase(c)` (an empty phase string is falsy). -/
def phaseOr (c : PolicyClause) : String :=
  match c.phase with
  | some s => if s == "" then _infer_phase c else s
  | Option.none => _infer_phase c

/-- The metadata dict built from a clause by `_lookup_clause_meta` and
`_best_hit_for_reason`. -/
def clauseMeta (c : PolicyClause) : Dict :=
  [("label", .str c.label), ("link", optStrVal c.link),
   ("framework", optStrVal c.framework), ("document", optStrVal c.document),
   ("phase", .str (phaseOr c))]

/-- `_lookup_clause_meta` (main.py): look the clause id/label up in the
full corpus, else fall back to the top hit, else `None`. -/
def _lookup_clause_meta (policy : List PolicyClause) (clause_id : String)
    (hits : List SearchHit) : Option Dict :=
  let cid := lowerStr (stripStr clause_id)
  let found : Option PolicyClause :=
    if cid ≠ "" then
      policy.find? (fun c => lowerStr (stripStr c.id) == cid || lowerStr (stripStr c.label) == cid)
    else Option.none
  match found with
  | some c => some (clauseMeta c)
  | Option.none =>
    match hits with
    | h :: _ => some (clauseMeta h.clause ++ [("matched_by", .str "retrieval")])
    | [] => Option.none

/-- `_best_hit_for_reason` (main.py): weighted best match
`0.7 * retrieval_score + 0.3 * text_similarity` over the first 8 hits.
`textSim` abstracts `difflib.SequenceMatcher(...).ratio()`, an opaque
similarity on lowercased text.  The outer `Option` is a raised exception
(lowering a truthy non-string reason). -/
def _best_hit_for_reason (textSim : String → String → ℚ) (hits : List SearchHit)
    (reason : PyVal) : Option (Option Dict) :=
  match hits with
  | [] => some Option.none
  | h0 :: _ => do
    let reason_l ← pyLower (pyOr reason (.str ""))
    let step := fun (best : Option PolicyClause × ℚ) (h : SearchHit) =>
      let sim := textSim reason_l (lowerStr h.clause.text)
      let score := 7/10 * h.score + 3/10 * sim
      if score > best.2 then (some h.clause, score) else best
    let best := (hits.take 8).foldl step (Option.none, -1)
    let bestC := best.1.getD h0.clause
    pure (some (clauseMeta bestC ++ [("matched_by", .str "reason-best-hit")]))

/-- `f[k] = v` on a dict: replace in place, else append. -/
def dictSet (d : Dict) (k : String) (v : PyVal) : Dict :=
  if hasKey d k then d.map (fun e => if e.1 == k then (k, v) else e)
  else d ++ [(k, v)]

/-- Python `{**a, **b}`: keys of `a` in order with `b`'s overrides, then
the new keys of `b`. -/
def mergeDict (a b : Dict) : Dict :=
  a.map (fun e => match dictGet? b e.1 with | some v => (e.1, v) | Option.none => e)
    ++ b.filter (fun e => !hasKey a e.1)

def asDict : PyVal → Option Dict
  | .dict d => some d
  | _ => Option.none

/-! ### `Flag(**f)` pydantic validation -/

def asStr : PyVal → Option String
  | .str s => some s
  | _ => Option.none

def asOptStr : PyVal → Option (Option String)
  | .none => some Option.none
  | .str s => some (some s)
  | _ => Option.none

def asOptDict : PyVal → Option (Option Dict)
  | .none => some Option.none
  | .dict d => some (some d)
  | _ => Option.none

def severityLiterals : List String := ["red", "amber", "green"]

/-- `Flag(**f)` (schemas.py via pydantic): required string fields, the
severity `Literal`, optional string/dict fields; a validation error is
`Option.none` (caught per-flag by the caller). -/
def pydanticFlag (f : Dict) : Option Flag := do
  let id ← asStr (pyGet f "id")
  let clause ← asStr (pyGet f "clause")
  let severity ←
    match dictGet? f "severity" with
    | Option.none => some "green"
    | some v => do
      let s ← asStr v
      if s ∈ severityLiterals then some s else Option.none
  let reason ← asStr (pyGet f "reason")
  let mitigation ← asOptStr (pyGet f "mitigation")
  let evidence ← asOptStr (pyGet f "evidence")
  let model ← asOptStr (pyGet f "model")
  let meta ← asOptDict (pyGet f "meta")
  pure ⟨id, clause, severity, reason, mitigation, evidence, model, meta⟩

/-- The clause-id allow-list of one request
(`{(h.clause.id or "").strip().lower() for h in hits}`). -/
def valid_ids (hits : List SearchHit) : List String :=
  hits.map (fun h => lowerStr (stripStr h.clause.id))

/-- `enrich = _lookup_clause_meta(...) or _best_hit_for_reason(...) or {}`
in the model-flag loop of `analyse`. -/
def resolveEnrich (policy : List PolicyClause) (textSim : String → String → ℚ)
    (hits : List SearchHit) (f : Dict) (clause_id0 : String) : Option Dict :=
  match _lookup_clause_meta policy clause_id0 hits with
  | some e => some e
  | Option.none => do
    let r ← _best_hit_for_reason textSim hits (pyGetD f "reason" (.str ""))
    pure (r.getD [])

/-- The label-match backfill of an empty clause id
(`if not clause_id and enrich.get("label"): ...`). -/
def computeBackfill (hits : List SearchHit) (enrich : Dict) (clause_id0 : String) :
    Option (Option SearchHit) :=
  if clause_id0 == "" && truthy (pyGet enrich "label") then do
    let lbl ← pyStrip (pyOr (pyGet enrich "label") (.str ""))
    pure (hits.find? (fun h => lowerStr (stripStr h.clause.label) == lowerStr lbl))
  else pure Option.none

/-- The state after the backfill loop: the flag dict (with `clause`
overwritten on a successful label match) and the final `clause_id`. -/
def applyBackfill (f1 : Dict) (clause_id0 : String) (backfill : Option SearchHit) :
    Dict × String :=
  match backfill with
  | some h => (dictSet f1 "clause" (.str h.clause.id), h.clause.id)
  | Option.none => (f1, clause_id0)

/-- The `VALID_CLAUSE_IDS` guard followed by `Flag(**f)`. -/
def guardFlag (vids : List String) (st : Dict × String) : Option Flag :=
  if lowerStr (stripStr st.2) ∈ vids then pydanticFlag st.1 else Option.none

/-- The per-flag body of the model-flag loop in `analyse` (main.py
782–810): resolve the clause reference, enrich metadata, backfill an empty
id by label match, enforce the allow-list, and validate; any exception
skips the flag. -/
def processOneFlag (policy : List PolicyClause) (textSim : String → String → ℚ)
    (hits : List SearchHit) (vids : List String) (f : Dict) : Option Flag := do
  let clause_id0 ← pyStrip (pyOr (pyGet f "clause") (pyOr (pyGet f "id") (.str "")))
  let meta ← asDict (pyOr (pyGet f "meta") (.dict []))
  let enrich ← resolveEnrich policy textSim hits f clause_id0
  let f1 := dictSet f "meta" (.dict (mergeDict meta enrich))
  let backfill ← computeBackfill hits enrich clause_id0
  guardFlag vids (applyBackfill f1 clause_id0 backfill)

/-! ## Prompt builders (main.py) -/

def SEVERITY_GUIDANCE : String :=
  "Calibrate consistently:\n- \"red\" = legal/critical gap or high residual risk\n- \"amber\" = material risk that needs mitigation\n- \"green\" = aligned or low residual risk\nWhen possible, include a short evidence snippet (quote) from the clause or project facts.\nReturn ONLY valid JSON that matches the provided schema."

def build_system : String :=
  "You are an AI governance assessor. Convert UK policy clauses (DSIT, ICO, ISO/IEC 42001) into actionable checks with conservative judgements. Output strict JSON only.\n\n"
  ++ SEVERITY_GUIDANCE

/-- `default_schema_hint` (llm.py), after its `.strip()`. -/
def default_schema_hint : String :=
  "\x7b\n      \"type\": \"object\",\n      \"properties\": \x7b\n        \"flags\": \x7b\n          \"type\": \"array\",\n          \"items\": \x7b\n            \"type\": \"object\",\n            \"properties\": \x7b\n              \"id\":        \x7b\"type\":\"string\"\x7d,\n              \"clause\":    \x7b\"type\":\"string\"\x7d,\n              \"severity\":  \x7b\"type\":\"string\",\"enum\":[\"red\",\"amber\",\"green\"]\x7d,\n              \"reason\":    \x7b\"type\":\"string\"\x7d,\n              \"mitigation\":\x7b\"type\":[\"string\",\"null\"]\x7d,\n              \"evidence\":  \x7b\"type\":[\"string\",\"null\"]\x7d,\n              \"meta\":      \x7b\"type\":[\"object\",\"null\"]\x7d\n            \x7d,\n            \"required\": [\"id\",\"clause\",\"severity\",\"reason\"]\n          \x7d\n        \x7d\n      \x7d,\n      \"required\": [\"flags\"]\n    \x7d"

/-- `join_list` (build_user helper, main.py). -/
def join_list (val : PyVal) : String :=
  match val with
  | .none => ""
  | .list xs => String.intercalate ", "
      (xs.filterMap (fun x => match x with | .none => Option.none | v => some (pyStr v)))
  | .str s => String.intercalate ", "
      ((((s.toList.splitOnP (fun c => c == ',' || c == ';' || c == '\n')).map
          String.mk).map stripStr).filter (fun t => t ≠ ""))
  | v => pyStr v

/-- `build_user` (main.py).  Attribute reads on the typed `ProjectInput`
are modelled as lookups on its dump; interpolation uses `str()`. -/
def build_user (payload : Dict) (hits : List SearchHit) : String :=
  let getv := fun (k : String) => pyGet payload k
  let desc := stripStr (pyStr (pyOr (getv "description") (.str "")))
  let title := stripStr (pyStr (pyOr (getv "title") (.str "")))
  let data_types := pyOr (getv "data_types") (.list [])
  let fairness_definition := pyOr (getv "fairness_definition") (.list [])
  let credible_harms := pyOr (getv "credible_harms") (.list [])
  let safety_mitigations := pyOr (getv "safety_mitigations") (.list [])
  let lines := hits.map (fun h =>
    "- id: " ++ h.clause.id ++ "\n  label: " ++ h.clause.label ++
    "\n  framework: " ++ pyStr (optStrVal h.clause.framework) ++
    "\n  text: " ++ h.clause.text)
  let clauses_block := String.intercalate "\n" lines
  let id_list_json := "[" ++
    String.intercalate ", " (hits.map (fun h => "\"" ++ h.clause.id ++ "\"")) ++ "]"
  "Project:\n- title: " ++ title ++
  "\n- description: " ++ desc ++
  "\n- model_type: " ++ pyStr (getv "model_type") ++
  "\n- deployment_env: " ++ pyStr (getv "deployment_env") ++
  "\n- data_types: " ++ join_list data_types ++
  "\n- privacy: processes_personal_data=" ++ pyStr (getv "processes_personal_data") ++
  ", special_category_data=" ++ pyStr (getv "special_category_data") ++
  "\n- explainability_tooling: " ++ pyStr (getv "explainability_tooling") ++
  "\n- interpretability_rating: " ++ pyStr (getv "interpretability_rating") ++
  "\n- fairness_definition: " ++ join_list fairness_definition ++
  "\n- accountable_owner: " ++ pyStr (getv "accountable_owner") ++
  "\n- model_cards_published: " ++ pyStr (getv "model_cards_published") ++
  "\n- safety: harms=" ++ join_list credible_harms ++
  ", mitigations=" ++ join_list safety_mitigations ++
  ", drift_detection=" ++ pyStr (getv "drift_detection") ++
  ", retraining_cadence=" ++ pyStr (getv "retraining_cadence") ++
  ", penetration_tested=" ++ pyStr (getv "penetration_tested") ++
  "\n\nCandidate policy clauses (DSIT, ICO, ISO):\n" ++ clauses_block ++
  "\n\nVALID_CLAUSE_IDS = " ++ id_list_json ++
  "\n\nTASK:\n1) Use only the clauses above to evaluate the project.\n" ++
  "2) The \"clause\" field for EACH flag MUST be one of VALID_CLAUSE_IDS (do not invent new IDs).\n" ++
  "3) Produce ONLY this JSON object:\n   \x7b\n     \"flags\": [\n       \x7b\n" ++
  "         \"id\": \"<clause id>\",\n         \"clause\": \"<clause id (must be in VALID_CLAUSE_IDS)>\",\n" ++
  "         \"severity\": \"red\" | \"amber\" | \"green\",\n" ++
  "         \"reason\": \"<one-sentence because-explanation referencing project facts>\",\n" ++
  "         \"mitigation\": \"<concrete step or null>\",\n         \"evidence\": \"<short quote/snippet or null>\"\n" ++
  "       \x7d\n     ]\n   \x7d\n" ++
  "4) Be conservative: choose \"green\" only when clearly compliant; use \"amber\" for partial/uncertain; \"red\" for clear gaps.\n" ++
  "5) Return just the JSON object; no extra text.\n"

/-! ## Green-flag synthesis (main.py) -/

/-- Decimal parse backing Python `float(str)`: plain optionally-signed
decimal notation; exotic forms (exponents, infinities) do not arise from
the schema-typed fields this is applied to. -/
def parseDecimal (s : String) : Option ℚ :=
  let s1 := (stripStr s).toList
  let sp : ℚ × List Char :=
    match s1 with
    | '-' :: rest => (-1, rest)
    | '+' :: rest => (1, rest)
    | _ => (1, s1)
  let digitsToNat := fun (cs : List Char) =>
    cs.foldlM (fun (acc : Nat) c =>
      if c.isDigit then some (acc * 10 + (c.toNat - 48)) else Option.none) 0
  match sp.2.splitOn '.' with
  | [ip] =>
    if ip.isEmpty then Option.none
    else (digitsToNat ip).map (fun n => sp.1 * n)
  | [ip, fp] =>
    if ip.isEmpty && fp.isEmpty then Option.none
    else do
      let n ← digitsToNat ip
      let fpn ← digitsToNat fp
      pure (sp.1 * ((n : ℚ) + (fpn : ℚ) / ((10 : ℚ) ^ fp.length)))
  | _ => Option.none

/-- Python `float(v)`: `Option.none` is a raised conversion error. -/
def pyFloat : PyVal → Option ℚ
  | .bool b => some (if b then 1 else 0)
  | .int n => some (n : ℚ)
  | .rat q => some q
  | .str s => parseDecimal s
  | _ => Option.none

/-- `_has_real_number` (main.py).  NaN cannot arise in the rational
model, so the `isnan` guard is vacuous here. -/
def _has_real_number : PyVal → Bool
  | .none => false
  | v => (pyFloat v).isSome

/-- The `has_clause` closure of `_synthesise_green_flags`. -/
def has_clause (hits : List SearchHit) (cid : String) : Bool :=
  hits.any (fun h => lowerStr (stripStr h.clause.id) == lowerStr (stripStr cid))

/-- One synthesis block: the positive-compliance condition, then the
retrieved-clause guard, then the green flag. -/
def greenIf (cond : Bool) (hits : List SearchHit) (cid : String) (fl : Flag) : List Flag :=
  if cond then (if has_clause hits cid then [fl] else []) else []

/-- `_synthesise_green_flags` (main.py 584–688): a fixed battery of up to
8 surviving positive-compliance checks (`greens[:8]` out of 9 blocks). -/
def _synthesise_green_flags (payload : Dict) (hits : List SearchHit) : List Flag :=
  let ps := payload
  let g := fun (k : String) => pyGet ps k
  let ir := g "interpretability_rating"
  let ir_ok : Bool :=
    match pyFloat ir with
    | some q => decide (3 ≤ q)
    | Option.none => (["3", "4", "5", "high"] : List String).contains (stripStr (pyStr ir))
  let greens :=
    greenIf (truthy (g "retention_defined") && truthy (g "lineage_doc_present")
        && truthy (pyOr (g "privacy_techniques") (.list [])))
      hits "ISO 42001 §8.2 Data-Management"
      ⟨"ISO 42001 §8.2 Data-Management", "ISO 42001 §8.2 Data-Management", "green",
       "Data governance present because retention is defined, lineage documented and privacy techniques are applied.",
       Option.none, some "retention_defined=True; lineage_doc_present=True; privacy_techniques set",
       Option.none, Option.none⟩ ++
    greenIf (truthy (g "explainability_tooling")
        && truthy (pyOr (g "explainability_channels") (.list [])))
      hits "DSIT §3.2.3 Transparency"
      ⟨"DSIT §3.2.3 Transparency", "DSIT §3.2.3 Transparency", "green",
       "Transparent/explainable because explainability tooling and channels for users are defined.",
       Option.none, some (pyStr (g "explainability_tooling")), Option.none, Option.none⟩ ++
    greenIf (ir_ok && truthy (g "explainability_tooling"))
      hits "ISO 42001 AnnexA A.6.8 Explainability"
      ⟨"ISO 42001 AnnexA A.6.8 Explainability", "ISO 42001 AnnexA A.6.8 Explainability", "green",
       "Interpretability is adequate for the context because interpretability is rated ≥3 and tooling is in place.",
       Option.none, some ("interpretability_rating=" ++ pyStr ir), Option.none, Option.none⟩ ++
    greenIf (truthy (g "penetration_tested") && truthy (g "pre_deployment_testing"))
      hits "ICO-Audit Pre-Deployment-Testing"
      ⟨"ICO-Audit Pre-Deployment-Testing", "ICO-Audit Pre-Deployment-Testing", "green",
       "Pre-deployment testing policy applied and penetration testing completed.",
       Option.none, some "penetration_tested=True; pre_deployment_testing=True",
       Option.none, Option.none⟩ ++
    greenIf (truthy (g "domain_threshold_met") && _has_real_number (g "validation_score"))
      hits "ISO 42001 §8.3 Design-Development"
      ⟨"ISO 42001 §8.3 Design-Development", "ISO 42001 §8.3 Design-Development", "green",
       "Performance meets planned domain threshold with recorded validation score.",
       Option.none, some ("validation_score=" ++ pyStr (g "validation_score")),
       Option.none, Option.none⟩ ++
    greenIf (truthy (g "robustness_above_baseline"))
      hits "ISO 42001 AnnexA A.6.5 Robustness-Accuracy"
      ⟨"ISO 42001 AnnexA A.6.5 Robustness-Accuracy", "ISO 42001 AnnexA A.6.5 Robustness-Accuracy", "green",
       "Robustness testing is above baseline according to stress/adversarial evaluations.",
       Option.none, some "robustness_above_baseline=True", Option.none, Option.none⟩ ++
    greenIf (truthy (g "accountable_owner") && truthy (g "escalation_route"))
      hits "DSIT §3.2.3 Accountability"
      ⟨"DSIT §3.2.3 Accountability", "DSIT §3.2.3 Accountability", "green",
       "Clear accountability and escalation route are defined across the lifecycle.",
       Option.none, some (pyStr (g "accountable_owner")), Option.none, Option.none⟩ ++
    greenIf (truthy (g "data_quality_checks") && _has_real_number (g "validation_score"))
      hits "ISO 42001 AnnexA A.6.2 Data-Quality"
      ⟨"ISO 42001 AnnexA A.6.2 Data-Quality", "ISO 42001 AnnexA A.6.2 Data-Quality", "green",
       "Data quality controls evidenced by validation score and explicit data-quality checks.",
       Option.none,
       some ("validation_score=" ++ pyStr (g "validation_score") ++ "; data_quality_checks=True"),
       Option.none, Option.none⟩ ++
    greenIf (truthy (g "outputs_exposed_to_end_users")
        && truthy (g "output_label_includes_probabilistic"))
      hits "ICO-Audit Inference-Labeling"
      ⟨"ICO-Audit Inference-Labeling", "ICO-Audit Inference-Labeling", "green",
       "User-facing outputs are clearly labelled as probabilistic with provenance/context.",
       Option.none, some "output_label_includes_probabilistic=True", Option.none, Option.none⟩
  greens.take 8

/-! ## The analyse pipeline (main.py) -/

/-- One iteration of the legacy-rules loop in `analyse` (main.py 813–831):
a firing rule contributes one flag; an exception in evaluation or in flag
construction skips just that rule. -/
def legacyFlagOfRule (policy : List PolicyClause) (hits : List SearchHit)
    (payload : Dict) (rule : Rule) : Option Flag := do
  let fired ← evaluate_rule rule payload
  if fired then
    let clause_id := pyStr (rule.clause.getD (.str ""))
    let meta := (_lookup_clause_meta policy clause_id hits).getD
      [("source", .str "legacy-rule")]
    let clauseS ← asStr (pyOr (.str clause_id) (pyOr (pyGet meta "label") (.str "unknown")))
    let mitigation ← asOptStr (rule.mitigation.getD .none)
    pure ⟨pyStr (rule.rid.getD (.str "")), clauseS,
      Backend._coerce_severity (rule.severity.getD (.str "green")),
      pyStr (rule.reason.getD (.str "")), mitigation, Option.none, Option.none,
      some (mergeDict meta [("source", .str "legacy-rule")])⟩
  else Option.none

/-- The process-level collaborators of `analyse`: the loaded corpus
(`POLICY`), the rule set (`RULES`), the `USE_LLM` toggle, the inference
boundary, and the opaque text-similarity function. -/
structure Env where
  policy : List PolicyClause
  rules : List Rule
  use_llm : Bool := true
  oracle : InferenceOracle
  textSim : String → String → ℚ

/-- `model_flags + legacy_flags` of one request: the generative flags that
survive normalisation, enrichment and the allow-list guard (an inference
failure degrading to none), followed by the flags of firing rules. -/
def merged_flags (env : Env) (payload : Dict) (hits : List SearchHit) : List Flag :=
  let llm_out : List Dict :=
    if env.use_llm then
      match (generate_flags env.oracle build_system (build_user payload hits)
          default_schema_hint Option.none true).1 with
      | some flags => flags
      | Option.none => []
    else []
  let model_flags := llm_out.filterMap
    (processOneFlag env.policy env.textSim hits (valid_ids hits))
  let legacy_flags := env.rules.filterMap (legacyFlagOfRule env.policy hits payload)
  model_flags ++ legacy_flags

/-- The flag list returned by `analyse` for a given retrieved hit set
(main.py 757–845): merged flags, or synthesized greens when nothing
fired. -/
def analyseWithHits (env : Env) (payload : Dict) (hits : List SearchHit) : List Flag :=
  let all_flags := merged_flags env payload hits
  if all_flags.isEmpty then _synthesise_green_flags payload hits else all_flags

/-! ## Retrieval (main.py) -/

/-- Stable insertion of `x` into `s`: `x` goes before the first element
`y` with `le x y`. -/
def insSorted (le : α → α → Bool) (x : α) : List α → List α
  | [] => [x]
  | y :: ys => if le x y then x :: y :: ys else y :: insSorted le x ys

/-- Python `list.sort` / `sorted` with comparison `le`: stable and total,
modelled as stable insertion sort (all stable sorts of a total preorder
compute the same list). -/
def pySort (le : α → α → Bool) : List α → List α
  | [] => []
  | x :: xs => insSorted le x (pySort le xs)

/-- Descending-by-score comparison for corpus rows
(`list.sort(key=score, reverse=True)` — stable). -/
def rowScoreDesc (a b : PolicyClause × ℚ) : Bool := decide (b.2 ≤ a.2)

/-- Descending-by-score comparison for hits (backfill sort). -/
def hitScoreDesc (a b : SearchHit) : Bool := decide (b.score ≤ a.score)

/-- One pass of the round-robin interleave:
`for fw in fws: if iters[fw]: out.append(iters[fw].pop(0)); if len(out) >= top_k: break`. -/
def rrPass (top_k : Nat) {α : Type} : List (List α) → List α → List (List α) × List α
  | [], out => ([], out)
  | b :: bs, out =>
    match b with
    | [] =>
      let r := rrPass top_k bs out
      ([] :: r.1, r.2)
    | h :: t =>
      let out' := out ++ [h]
      if top_k ≤ out'.length then (t :: bs, out')
      else
        let r := rrPass top_k bs out'
        (t :: r.1, r.2)

/-- The `while len(out) < top_k and any(iters.values())` loop.  Each pass
that runs removes at least one queued element, so `fuel` set to the total
element count plus one always suffices. -/
def rrLoop (top_k : Nat) {α : Type} : Nat → List (List α) → List α → List α
  | 0, _, out => out
  | fuel + 1, iters, out =>
    if out.length < top_k then
      if iters.any (fun b => !b.isEmpty) then
        let r := rrPass top_k iters out
        rrLoop top_k fuel r.1 r.2
      else out
    else out

/-- The 180-character snippet of a hit. -/
def mkSnippet (text : String) : String :=
  if 180 < text.length then takeStr text 180 ++ "…" else text

/-- The framework allow-list test (`if fw_allow and fw not in fw_allow`). -/
def allowedFw (fw_allow : Option (List String)) (fw : String) : Bool :=
  match fw_allow with
  | Option.none => true
  | some l => l.contains fw

/-- The framework bucket key of a scored corpus row
(`(c.framework or "UNK").upper()`). -/
def fwOfRow (r : PolicyClause × ℚ) : String :=
  upperStr (r.1.framework.getD "UNK")

/-- The `SearchHit` built from a scored corpus row. -/
def hitOfRow (r : PolicyClause × ℚ) : SearchHit :=
  ⟨r.1.id, r.2, some (mkSnippet r.1.text), r.1⟩

/-- One framework's bucket: the hits of that framework in ranked order. -/
def bucketOf (bucketRows : List (PolicyClause × ℚ)) (fw : String) : List SearchHit :=
  (bucketRows.filter (fun r => fwOfRow r == fw)).map hitOfRow

/-- `fws = sorted(buckets.keys())`. -/
def fwsOf (bucketRows : List (PolicyClause × ℚ)) : List String :=
  pySort strLe (bucketRows.map fwOfRow).dedup

/-- `per_fw = max(1, top_k // max(1, len(fws)))`. -/
def perFwOf (top_k : Nat) (bucketRows : List (PolicyClause × ℚ)) : Nat :=
  max 1 (top_k / max 1 (fwsOf bucketRows).length)

/-- The quota-capped per-framework queues, in framework-name order. -/
def itersOf (top_k : Nat) (bucketRows : List (PolicyClause × ℚ)) : List (List SearchHit) :=
  (fwsOf bucketRows).map
    (fun fw => (bucketOf bucketRows fw).take (perFwOf top_k bucketRows))

/-- The round-robin output (`while` loop). -/
def out1Of (top_k : Nat) (bucketRows : List (PolicyClause × ℚ)) : List SearchHit :=
  rrLoop top_k (((itersOf top_k bucketRows).map List.length).sum + 1)
    (itersOf top_k bucketRows) []

/-- The output after the score-ordered backfill. -/
def out2Of (top_k : Nat) (bucketRows : List (PolicyClause × ℚ)) : List SearchHit :=
  if (out1Of top_k bucketRows).length < top_k then
    out1Of top_k bucketRows ++
      (pySort hitScoreDesc
        (((fwsOf bucketRows).map
          (fun fw => (bucketOf bucketRows fw).drop (perFwOf top_k bucketRows))).flatten)).take
        (top_k - (out1Of top_k bucketRows).length)
  else out1Of top_k bucketRows

/-- The interleaving-plus-backfill tail of `retrieve`, from the sorted,
allow-filtered rows: quota capping, round-robin, score-ordered backfill,
truncation. -/
def interleave (top_k : Nat) (bucketRows : List (PolicyClause × ℚ)) : List SearchHit :=
  if (fwsOf bucketRows).isEmpty then []
  else (out2Of top_k bucketRows).take top_k

/-- `retrieve` (main.py 417–468).  The TF-IDF cosine similarities
(`cosine_similarity`, external numeric code over the fitted vectorizer)
enter as `sims`, one score per corpus clause in corpus order; an unbuilt
index (empty corpus) returns no hits.  Everything downstream is modelled
from the source: allow-list filtering, stable descending sort,
per-framework buckets, `max(1, top_k // framework_count)` quota,
round-robin interleave over framework-name order, score-ordered backfill,
truncation to `top_k`. -/
def retrieve (policy : List PolicyClause) (sims : List ℚ) (top_k : Nat)
    (frameworks : Option (List String)) : List SearchHit :=
  if policy.isEmpty then [] else
  let fw_allow : Option (List String) :=
    match frameworks with
    | some fws => if fws.isEmpty then Option.none else some (fws.map upperStr)
    | Option.none => Option.none
  let rows := (policy.zip sims).filter
    (fun r => allowedFw fw_allow (upperStr (r.1.framework.getD "")))
  let sortedRows := pySort rowScoreDesc rows
  let bucketRows := sortedRows.filter (fun r => allowedFw fw_allow (fwOfRow r))
  interleave top_k bucketRows

/-- `analyse` (main.py, `/analyse` endpoint): retrieval with `top_k=20`
and no framework filter, then the flag pipeline on the retrieved hits. -/
def analyse (env : Env) (sims : List ℚ) (payload : Dict) : List Flag :=
  analyseWithHits env payload (retrieve env.policy sims 20 Option.none)

/-! ## Synthesis facts -/

theorem mem_greenIf {f fl : Flag} {cond : Bool} {hits : List SearchHit} {cid : String}
    (h : f ∈ greenIf cond hits cid fl) : f = fl ∧ has_clause hits cid = true := by
  unfold greenIf at h
  by_cases hc : cond = true
  · rw [if_pos hc] at h
    by_cases hh : has_clause hits cid = true
    · rw [if_pos hh] at h
      exact ⟨List.mem_singleton.mp h, hh⟩
    · rw [if_neg hh] at h
      simp at h
  · rw [if_neg hc] at h
    simp at h

theorem has_clause_spec {hits : List SearchHit} {cid : String}
    (h : has_clause hits cid = true) :
    ∃ hh ∈ hits, lowerStr (stripStr hh.clause.id) = lowerStr (stripStr cid) := by
  unfold has_clause at h
  obtain ⟨x, hx, he⟩ := List.any_eq_true.mp h
  exact ⟨x, hx, by simpa using he⟩

/-- Every synthesized flag is green, has the non-empty templated reason of
its block, and references (case-insensitively) a retrieved clause. -/
theorem synth_flag_spec (payload : Dict) (hits : List SearchHit) :
    ∀ f ∈ _synthesise_green_flags payload hits,
      f.severity = "green" ∧ f.reason ≠ "" ∧
      ∃ hh ∈ hits, lowerStr (stripStr hh.clause.id) = lowerStr (stripStr f.clause) := by
  intro f hf
  simp only [_synthesise_green_flags] at hf
  have hf' := List.mem_of_mem_take hf
  simp only [List.mem_append] at hf'
  rcases hf' with ((((((((h | h) | h) | h) | h) | h) | h) | h) | h) <;>
    · obtain ⟨rfl, hcl⟩ := mem_greenIf h
      exact ⟨rfl, by simp, has_clause_spec hcl⟩

/-- C5: the synthesis step emits at most 8 flags, each with severity
exactly "green" and each with a clause id present (case-insensitively) in
the retrieved hit set — a synthetic check whose target clause was not
retrieved contributes nothing — and it reaches the output only when the
merged generative-plus-rule flag list is empty. -/
theorem synthesis_green_gated (env : Env) (payload : Dict) (hits : List SearchHit) :
    (_synthesise_green_flags payload hits).length ≤ 8
    ∧ (∀ f ∈ _synthesise_green_flags payload hits,
        f.severity = "green" ∧
        ∃ hh ∈ hits, lowerStr (stripStr hh.clause.id) = lowerStr (stripStr f.clause))
    ∧ (merged_flags env payload hits ≠ [] →
        analyseWithHits env payload hits = merged_flags env payload hits)
    ∧ (merged_flags env payload hits = [] →
        analyseWithHits env payload hits = _synthesise_green_flags payload hits) := by
  refine ⟨?_, ?_, ?_, ?_⟩
  · simp only [_synthesise_green_flags]
    simpa using Nat.min_le_left 8 _
  · intro f hf
    obtain ⟨h1, _, h3⟩ := synth_flag_spec payload hits f hf
    exact ⟨h1, h3⟩
  · intro hne
    unfold analyseWithHits
    cases hm : merged_flags env payload hits with
    | nil => exact absurd hm hne
    | cons a l => simp
  · intro he
    unfold analyseWithHits
    rw [he]
    rfl

/-- Witness for C5: a request where nothing fired and one positive check
has its clause retrieved synthesizes exactly that green list. -/
theorem synthesis_green_gated_witness :
    analyseWithHits
      ⟨[], [], true, fun _ => Option.none, fun _ _ => 0⟩
      [("retention_defined", PyVal.bool true), ("lineage_doc_present", PyVal.bool true),
       ("privacy_techniques", PyVal.list [PyVal.str "dp"])]
      [⟨"x", 0, Option.none,
        ⟨"ISO 42001 §8.2 Data-Management", "L", "t", Option.none, Option.none,
         Option.none, Option.none, Option.none⟩⟩] =
    _synthesise_green_flags
      [("retention_defined", PyVal.bool true), ("lineage_doc_present", PyVal.bool true),
       ("privacy_techniques", PyVal.list [PyVal.str "dp"])]
      [⟨"x", 0, Option.none,
        ⟨"ISO 42001 §8.2 Data-Management", "L", "t", Option.none, Option.none,
         Option.none, Option.none, Option.none⟩⟩] :=
  (synthesis_green_gated
    ⟨[], [], true, fun _ => Option.none, fun _ _ => 0⟩
    [("retention_defined", PyVal.bool true), ("lineage_doc_present", PyVal.bool true),
     ("privacy_techniques", PyVal.list [PyVal.str "dp"])]
    [⟨"x", 0, Option.none,
      ⟨"ISO 42001 §8.2 Data-Management", "L", "t", Option.none, Option.none,
       Option.none, Option.none, Option.none⟩⟩]).2.2.2 rfl

/-! ## C9: the non-empty-reason invariant -/

/-- C9 as stated fails on the code: nothing in `_normalise_flag`,
`analyse`, or the `Flag` schema requires a non-empty reason.  Concrete
run: corpus `[C1]`, one similarity score, a model response carrying a
valid clause id and no `reason` key — the returned flag has `reason`
equal to the empty string. -/
theorem flag_reason_nonempty_cex :
    ∃ f ∈ analyse
      ⟨[⟨"C1", "Lbl One", "clause text", Option.none, Option.none, Option.none,
         Option.none, Option.none⟩], [], true,
       fun _ => some (some (.dict [("flags",
         .list [.dict [("id", .str "C1"), ("clause", .str "C1"),
                       ("severity", .str "red")]])])),
       fun _ _ => 0⟩
      [0] [], f.reason = "" := by decide

/-- C9 amended: synthesized flags always carry a non-empty templated
reason, while generative and rule-engine flags carry the model output's
stripped reason / the rule record's stringified reason verbatim — which
the pipeline does not require to be non-empty. -/
theorem flag_reason_amended (payload : Dict) (hits : List SearchHit) :
    (∀ f ∈ _synthesise_green_flags payload hits, f.reason ≠ "")
    ∧ (∀ (policy : List PolicyClause) (rule : Rule) (f : Flag),
        legacyFlagOfRule policy hits payload rule = some f →
        f.reason = pyStr (rule.reason.getD (.str ""))) := by
  constructor
  · exact fun f hf => (synth_flag_spec payload hits f hf).2.1
  · intro policy rule f h
    unfold legacyFlagOfRule at h
    cases hev : evaluate_rule rule payload with
    | none => rw [hev] at h; simp at h
    | some fired =>
      rw [hev] at h
      cases fired with
      | false => simp at h
      | true =>
        simp only [Option.bind_eq_bind, Option.some_bind, if_true] at h
        cases hs : asStr (pyOr (.str (pyStr (rule.clause.getD (.str ""))))
            (pyOr (pyGet ((_lookup_clause_meta policy
              (pyStr (rule.clause.getD (.str ""))) hits).getD
              [("source", .str "legacy-rule")]) "label") (.str "unknown"))) with
        | none => rw [hs] at h; simp at h
        | some cS =>
          rw [hs] at h
          cases hm : asOptStr (rule.mitigation.getD .none) with
          | none => rw [hm] at h; simp at h
          | some mit =>
            rw [hm] at h
            simp only [Option.bind_eq_bind, Option.some_bind] at h
            cases Option.some.inj h
            rfl

/-- Witness for the amended C9: a firing rule's flag carries the rule's
reason text verbatim. -/
theorem flag_reason_amended_witness :
    ∃ f, legacyFlagOfRule [] []
        [("processes_personal_data", PyVal.bool true)]
        { trigger := some [("processes_personal_data", PyVal.bool true)],
          clause := some (.str "LEGACY-X"), reason := some (.str "personal data") } = some f
      ∧ f.reason = "personal data" := by
  rcases hl : legacyFlagOfRule [] []
      [("processes_personal_data", PyVal.bool true)]
      { trigger := some [("processes_personal_data", PyVal.bool true)],
        clause := some (.str "LEGACY-X"), reason := some (.str "personal data") } with _ | f
  · have hso : (legacyFlagOfRule [] []
        [("processes_personal_data", PyVal.bool true)]
        { trigger := some [("processes_personal_data", PyVal.bool true)],
          clause := some (.str "LEGACY-X"),
          reason := some (.str "personal data") }).isSome = true := by decide
    rw [hl] at hso
    simp at hso
  · refine ⟨f, rfl, ?_⟩
    have := (flag_reason_amended [("processes_personal_data", PyVal.bool true)] []).2
      [] _ f hl
    rw [this]
    rfl

/-! ## Dict-update and strip facts -/

theorem dropWhile_eq_self_of_prefix {α : Type} {p : α → Bool} {l B : List α}
    (hpre : B <+: l.dropWhile p) : B.dropWhile p = B := by
  cases B with
  | nil => rfl
  | cons b bs =>
    obtain ⟨r, hr⟩ := hpre
    have h2 := List.head?_dropWhile_not p l
    rw [← hr] at h2
    simp at h2
    simp [List.dropWhile_cons, h2]

theorem stripStr_idem (s : String) : stripStr (stripStr s) = stripStr s := by
  unfold stripStr
  show String.mk _ = String.mk _
  set w := Char.isWhitespace with hw
  set A := s.toList.dropWhile w with hA
  set S := A.reverse.dropWhile w with hS
  have htl : (String.mk S.reverse).toList = S.reverse := rfl
  rw [htl]
  have hpre : S.reverse <+: A := by
    have hsuf : S <:+ A.reverse := by rw [hS]; exact List.dropWhile_suffix w
    have hiff := @List.reverse_suffix _ S.reverse A
    rw [List.reverse_reverse] at hiff
    exact hiff.mp hsuf
  have h1 : S.reverse.dropWhile w = S.reverse := by
    rw [hA] at hpre
    exact dropWhile_eq_self_of_prefix hpre
  have h2 : S.dropWhile w = S := by
    rw [hS]
    exact List.dropWhile_idempotent w A.reverse
  rw [h1, List.reverse_reverse, h2]

theorem find?_set_map (d : Dict) (k : String) (v : PyVal) (hk : hasKey d k = true) :
    (d.map (fun e => if e.1 == k then (k, v) else e)).find? (fun e => e.1 == k)
      = some (k, v) := by
  induction d with
  | nil => simp [hasKey] at hk
  | cons e es ih =>
    rw [List.map_cons]
    by_cases he : (e.1 == k) = true
    · rw [if_pos he]
      exact List.find?_cons_of_pos _ (by simp)
    · rw [if_neg he]
      rw [List.find?_cons_of_neg _ (by simpa using he)]
      apply ih
      unfold hasKey at hk ⊢
      have hk2 : (e.1 == k) = true ∨ es.any (fun x => x.1 == k) = true := by
        simpa using hk
      rcases hk2 with h | h
      · exact absurd h he
      · exact h

theorem find?_cons_neg {α : Type} (p : α → Bool) (a : α) (l : List α)
    (h : p a = false) : (a :: l).find? p = l.find? p :=
  List.find?_cons_of_neg l (by simp [h])

theorem find?_cons_pos {α : Type} (p : α → Bool) (a : α) (l : List α)
    (h : p a = true) : (a :: l).find? p = some a :=
  List.find?_cons_of_pos l h

theorem find?_set_map_other (d : Dict) (k k' : String) (v : PyVal)
    (hne : (k' == k) = false) :
    (d.map (fun e => if e.1 == k then (k, v) else e)).find? (fun e => e.1 == k')
      = d.find? (fun e => e.1 == k') := by
  have hne' : ((k, v).1 == k') = false := by
    simp at hne ⊢
    exact fun h => hne h.symm
  induction d with
  | nil => rfl
  | cons e es ih =>
    rw [List.map_cons]
    by_cases he : (e.1 == k) = true
    · rw [if_pos he]
      have he' : e.1 = k := by simpa using he
      rw [find?_cons_neg (fun e : String × PyVal => e.1 == k') _ _ hne']
      rw [find?_cons_neg (fun e : String × PyVal => e.1 == k') _ _
        (by show (e.1 == k') = false; rw [he']; exact hne')]
      exact ih
    · rw [if_neg he]
      by_cases he2 : (e.1 == k') = true
      · rw [find?_cons_pos (fun e : String × PyVal => e.1 == k') _ _ he2,
            find?_cons_pos (fun e : String × PyVal => e.1 == k') _ _ he2]
      · rw [find?_cons_neg (fun e : String × PyVal => e.1 == k') _ _ (by simpa using he2),
            find?_cons_neg (fun e : String × PyVal => e.1 == k') _ _ (by simpa using he2)]
        exact ih

theorem dictGet?_dictSet_self (d : Dict) (k : String) (v : PyVal) :
    dictGet? (dictSet d k v) k = some v := by
  unfold dictSet dictGet?
  by_cases hk : hasKey d k = true
  · rw [if_pos hk, find?_set_map d k v hk]
    rfl
  · rw [if_neg hk, List.find?_append]
    have hnone : d.find? (fun e => e.1 == k) = Option.none := by
      rw [List.find?_eq_none]
      intro e he hbe
      exact hk (List.any_eq_true.mpr ⟨e, he, hbe⟩)
    rw [hnone]
    simp [List.find?_cons_of_pos _ (by simp : (((k, v) : String × PyVal).1 == k) = true)]

theorem dictGet?_dictSet_other (d : Dict) (k k' : String) (v : PyVal)
    (hne : (k' == k) = false) :
    dictGet? (dictSet d k v) k' = dictGet? d k' := by
  unfold dictSet dictGet?
  by_cases hk : hasKey d k = true
  · rw [if_pos hk, find?_set_map_other d k k' v hne]
  · rw [if_neg hk, List.find?_append]
    have hlast : ([((k, v) : String × PyVal)].find? (fun e => e.1 == k')) = Option.none := by
      rw [List.find?_eq_none]
      intro e he
      simp at he
      rw [he]
      simp at hne ⊢
      exact fun h => hne h.symm
    rw [hlast]
    cases d.find? (fun e => e.1 == k') <;> rfl

theorem pyGet_dictSet_self (d : Dict) (k : String) (v : PyVal) :
    pyGet (dictSet d k v) k = v := by
  unfold pyGet
  rw [dictGet?_dictSet_self]
  rfl

theorem pyGet_dictSet_other (d : Dict) (k k' : String) (v : PyVal)
    (hne : (k' == k) = false) : pyGet (dictSet d k v) k' = pyGet d k' := by
  unfold pyGet
  rw [dictGet?_dictSet_other d k k' v hne]

/-! ## C1: validated flags reference the retrieved set -/

theorem asStr_eq_some {v : PyVal} {s : String} (h : asStr v = some s) :
    v = .str s := by
  cases v <;> simp_all [asStr]

theorem pydanticFlag_fields {f : Dict} {fl : Flag} (h : pydanticFlag f = some fl) :
    pyGet f "id" = .str fl.id ∧ pyGet f "clause" = .str fl.clause := by
  unfold pydanticFlag at h
  simp only [Option.bind_eq_bind, Option.pure_def, Option.bind_eq_some] at h
  obtain ⟨i, hi, h⟩ := h
  obtain ⟨c, hc, h⟩ := h
  cases hsev : dictGet? f "severity" with
  | none =>
    rw [hsev] at h
    simp only [Option.some_bind, Option.bind_eq_some] at h
    obtain ⟨r, hr, h⟩ := h
    obtain ⟨mi, hmi, h⟩ := h
    obtain ⟨ev, hev, h⟩ := h
    obtain ⟨mo, hmo, h⟩ := h
    obtain ⟨me, hme, h⟩ := h
    cases Option.some.inj h
    exact ⟨asStr_eq_some hi, asStr_eq_some hc⟩
  | some v =>
    rw [hsev] at h
    simp only [Option.bind_eq_some] at h
    obtain ⟨s, hs, h⟩ := h
    split at h
    · simp only [Option.some_bind, Option.bind_eq_some] at h
      obtain ⟨r, hr, h⟩ := h
      obtain ⟨mi, hmi, h⟩ := h
      obtain ⟨ev, hev, h⟩ := h
      obtain ⟨mo, hmo, h⟩ := h
      obtain ⟨me, hme, h⟩ := h
      cases Option.some.inj h
      exact ⟨asStr_eq_some hi, asStr_eq_some hc⟩
    · simp at h

/-- Every generative flag surviving the allow-list guard of `analyse`
references the retrieved id set: its clause field — or, when the clause is
blank, its id field — lands in `valid_ids` after stripping and
lowercasing. -/
theorem processOneFlag_guard {policy : List PolicyClause}
    {textSim : String → String → ℚ} {hits : List SearchHit}
    {vids : List String} {f : Dict} {fl : Flag}
    (h : processOneFlag policy textSim hits vids f = some fl) :
    lowerStr (stripStr fl.clause) ∈ vids ∨ lowerStr (stripStr fl.id) ∈ vids := by
  unfold processOneFlag at h
  simp only [Option.bind_eq_bind, Option.bind_eq_some] at h
  obtain ⟨cid0, hcid, h⟩ := h
  obtain ⟨meta, hmeta, h⟩ := h
  obtain ⟨enrich, henr, h⟩ := h
  obtain ⟨backfill, hback, h⟩ := h
  unfold guardFlag applyBackfill at h
  cases backfill with
  | some hh =>
    split at h
    case isTrue hg =>
      have hfld := pydanticFlag_fields h
      have hcl := pyGet_dictSet_self
        (dictSet f "meta" (.dict (mergeDict meta enrich))) "clause" (.str hh.clause.id)
      rw [hfld.2] at hcl
      left
      rw [PyVal.str.inj hcl]
      exact hg
    case isFalse => simp at h
  | none =>
    split at h
    case isTrue hg =>
      have hfld := pydanticFlag_fields h
      have hclause : pyGet f "clause" = .str fl.clause := by
        have h2 := hfld.2
        rwa [pyGet_dictSet_other f "meta" "clause" _ (by decide)] at h2
      have hid : pyGet f "id" = .str fl.id := by
        have h1 := hfld.1
        rwa [pyGet_dictSet_other f "meta" "id" _ (by decide)] at h1
      rw [hclause, hid] at hcid
      by_cases hc : fl.clause = ""
      · rw [hc] at hcid
        by_cases hi : fl.id = ""
        · rw [hi] at hcid
          simp [pyOr, truthy, pyStrip] at hcid
          left
          rw [hc]
          rw [← hcid] at hg
          rwa [stripStr_idem] at hg
        · right
          have htr : truthy (.str fl.id) = true := by simp [truthy, hi]
          simp [pyOr, truthy, pyStrip, htr, hi] at hcid
          rw [← hcid] at hg
          rwa [stripStr_idem] at hg
      · left
        have htr : truthy (.str fl.clause) = true := by simp [truthy, hc]
        simp [pyOr, htr, pyStrip] at hcid
        rw [← hcid] at hg
        rwa [stripStr_idem] at hg
    case isFalse => simp at h

/-- C1 fails on the code as stated: the clause-id allow-list guard applies
only to generative flags.  A firing legacy rule contributes a flag whose
clause is the rule's declared reference, which need not be retrieved.
Concrete run: corpus `[C1]`, similarity `[0]`, a model response with no
flags, and one firing rule referencing `LEGACY-X`: the returned flag's
clause differs from every retrieved clause id. -/
theorem flag_clause_retrieved_cex :
    ∃ f ∈ analyse
      ⟨[⟨"C1", "Lbl One", "clause text", Option.none, Option.none, Option.none,
         Option.none, Option.none⟩],
       [{ trigger := some [("processes_personal_data", PyVal.bool true)],
          clause := some (.str "LEGACY-X"), severity := some (.str "amber"),
          reason := some (.str "personal data") }],
       true, fun _ => some (some (.dict [("flags", .list [])])), fun _ _ => 0⟩
      [0] [("processes_personal_data", PyVal.bool true)],
      ∀ h ∈ retrieve [⟨"C1", "Lbl One", "clause text", Option.none, Option.none,
          Option.none, Option.none, Option.none⟩] [0] 20 Option.none,
        f.clause ≠ h.clause.id := by decide

/-- C1 amended: generative flags surviving the allow-list guard reference
the retrieved set case-insensitively (after stripping) through their
clause field, or through their id field when the clause is blank;
synthesized flags reference the retrieved set case-insensitively;
rule-engine flags are exempt from the guard. -/
theorem flags_reference_retrieved_amended
    (policy : List PolicyClause) (textSim : String → String → ℚ)
    (payload : Dict) (hits : List SearchHit) (llm_out : List Dict) :
    (∀ f ∈ llm_out.filterMap (processOneFlag policy textSim hits (valid_ids hits)),
        lowerStr (stripStr f.clause) ∈ valid_ids hits
          ∨ lowerStr (stripStr f.id) ∈ valid_ids hits)
    ∧ (∀ f ∈ _synthesise_green_flags payload hits,
        lowerStr (stripStr f.clause) ∈ valid_ids hits) := by
  constructor
  · intro f hf
    obtain ⟨d, _, hp⟩ := List.mem_filterMap.mp hf
    exact processOneFlag_guard hp
  · intro f hf
    obtain ⟨_, _, hh, hmem, hid⟩ := synth_flag_spec payload hits f hf
    unfold valid_ids
    exact List.mem_map.mpr ⟨hh, hmem, hid⟩

def wHit : SearchHit :=
  ⟨"C1", 0, Option.none,
   ⟨"C1", "L", "t", Option.none, Option.none, Option.none, Option.none, Option.none⟩⟩

def wFlagDict : Dict :=
  [("id", .str "C1"), ("clause", .str "C1"), ("severity", .str "red"),
   ("reason", .str "ok")]

/-- Witness for the amended C1: a surviving generative flag with clause
`C1` references the retrieved id set. -/
theorem flags_reference_retrieved_amended_witness :
    ∃ f ∈ [wFlagDict].filterMap
        (processOneFlag [] (fun _ _ => 0) [wHit] (valid_ids [wHit])),
      lowerStr (stripStr f.clause) ∈ valid_ids [wHit]
        ∨ lowerStr (stripStr f.id) ∈ valid_ids [wHit] := by
  rcases hl : [wFlagDict].filterMap
      (processOneFlag [] (fun _ _ => 0) [wHit] (valid_ids [wHit])) with _ | ⟨f, fs⟩
  · have hlen : ([wFlagDict].filterMap
        (processOneFlag [] (fun _ _ => 0) [wHit] (valid_ids [wHit]))).length = 1 := by
      decide
    rw [hl] at hlen
    simp at hlen
  · refine ⟨f, List.mem_cons_self _ _, ?_⟩
    exact (flags_reference_retrieved_amended [] (fun _ _ => 0) [] [wHit] [wFlagDict]).1
      f (by rw [hl]; exact List.mem_cons_self _ _)

/-- C3: failures are never propagated to the caller: (i) when the
inference call raises (timeout, transport error, non-2xx) or degrades to
zero flags (unparseable output), `analyse` still runs the rule engine and
returns the legacy flags — or the synthesized greens when those are empty
too; (ii) a rule whose evaluation raises is skipped without affecting the
other rules.  The result is a structurally valid flag list in every
case (by the return type of the model). -/
theorem analyse_degrades_gracefully (env : Env) (payload : Dict) (hits : List SearchHit) :
    (((generate_flags env.oracle build_system (build_user payload hits)
          default_schema_hint Option.none true).1 = Option.none ∨
      (generate_flags env.oracle build_system (build_user payload hits)
          default_schema_hint Option.none true).1 = some []) →
      analyseWithHits env payload hits =
        (let legacy := env.rules.filterMap (legacyFlagOfRule env.policy hits payload)
         if legacy.isEmpty then _synthesise_green_flags payload hits else legacy))
    ∧ (∀ pre r post, env.rules = pre ++ r :: post →
        evaluate_rule r payload = Option.none →
        analyseWithHits env payload hits =
          analyseWithHits { env with rules := pre ++ post } payload hits) := by
  constructor
  · intro hgen
    unfold analyseWithHits merged_flags
    cases hu : env.use_llm with
    | false => simp
    | true =>
      rcases hgen with hg | hg <;> rw [hg] <;> simp
  · intro pre r post hrules hev
    have hnone : legacyFlagOfRule env.policy hits payload r = Option.none := by
      unfold legacyFlagOfRule
      rw [hev]
      rfl
    have hsplit : List.filterMap (legacyFlagOfRule env.policy hits payload) (pre ++ r :: post)
        = List.filterMap (legacyFlagOfRule env.policy hits payload) (pre ++ post) := by
      rw [List.filterMap_append, List.filterMap_append]
      congr 1
      rw [List.filterMap_cons, hnone]
    unfold analyseWithHits merged_flags
    rw [hrules, hsplit]

/-- Witness for C3: with a failing inference boundary, no rules and no
retrievable clauses, `analyse` degrades to the (empty) synthesized
list rather than an error. -/
theorem analyse_degrades_gracefully_witness :
    analyseWithHits ⟨[], [], true, fun _ => Option.none, fun _ _ => 0⟩ [] [] =
      _synthesise_green_flags [] [] := by
  have h := (analyse_degrades_gracefully
    ⟨[], [], true, fun _ => Option.none, fun _ _ => 0⟩ [] []).1 (Or.inl rfl)
  simpa using h

/-! ## Stability of the retrieval sort (C6) -/

theorem sublist_insSorted {α : Type} (le : α → α → Bool) (x : α) (s : List α) :
    s.Sublist (insSorted le x s) := by
  induction s with
  | nil => simp [insSorted]
  | cons y ys ih =>
    unfold insSorted
    split
    · exact List.sublist_cons_self x (y :: ys)
    · exact List.Sublist.cons₂ y ih

theorem pair_sublist_insSorted {α : Type} (le : α → α → Bool) {a b : α} {s : List α}
    (hab : le a b = true) (hb : [b].Sublist s) :
    [a, b].Sublist (insSorted le a s) := by
  induction s with
  | nil => simp at hb
  | cons y ys ih =>
    unfold insSorted
    by_cases hy : le a y = true
    · rw [if_pos hy]
      exact List.Sublist.cons₂ a hb
    · rw [if_neg hy]
      cases hb with
      | cons _ h' =>
        exact List.Sublist.cons y (ih h')
      | cons₂ _ h' =>
        exact absurd hab hy
  
theorem insSorted_perm {α : Type} (le : α → α → Bool) (x : α) (s : List α) :
    (insSorted le x s).Perm (x :: s) := by
  induction s with
  | nil => simp [insSorted]
  | cons y ys ih =>
    unfold insSorted
    split
    · exact List.Perm.refl _
    · exact (List.Perm.cons y ih).trans (List.Perm.swap x y ys)

theorem pySort_perm {α : Type} (le : α → α → Bool) (l : List α) :
    (pySort le l).Perm l := by
  induction l with
  | nil => exact List.Perm.refl _
  | cons x xs ih =>
    exact (insSorted_perm le x (pySort le xs)).trans (List.Perm.cons x ih)

/-- Stability: an ordered pair of the input whose left member may come
first (`le a b`) stays ordered in the sorted output. -/
theorem pair_sublist_pySort {α : Type} (le : α → α → Bool) {a b : α} {l : List α}
    (hab : le a b = true) (h : [a, b].Sublist l) :
    [a, b].Sublist (pySort le l) := by
  induction l with
  | nil => simp at h
  | cons x xs ih =>
    unfold pySort
    cases h with
    | cons _ h' =>
      exact (ih h').trans (sublist_insSorted le x (pySort le xs))
    | cons₂ _ h' =>
      have hbmem : b ∈ pySort le xs :=
        ((pySort_perm le xs).mem_iff).mpr (List.singleton_sublist.mp h')
      exact pair_sublist_insSorted le hab (List.singleton_sublist.mpr hbmem)

theorem pair_get_sublist {α : Type} :
    ∀ (l : List α) (i j : Nat) (hi : i < l.length) (hj : j < l.length), i < j →
      [l.get ⟨i, hi⟩, l.get ⟨j, hj⟩].Sublist l := by
  intro l
  induction l with
  | nil => intro i j hi _ _; simp at hi
  | cons a t ih =>
    intro i j hi hj hij
    cases i with
    | zero =>
      cases j with
      | zero => exact absurd hij (lt_irrefl 0)
      | succ j' =>
        exact List.Sublist.cons₂ a
          (List.singleton_sublist.mpr (List.get_mem t j' (by simpa using hj)))
    | succ i' =>
      cases j with
      | zero => exact absurd hij (by omega)
      | succ j' =>
        exact List.Sublist.cons a (ih i' j' (by simpa using hi) (by simpa using hj) (by omega))

/-- C6: analysis is deterministic — equal corpus/rules/inference-response
environments, similarity vectors and requests yield identical flag lists —
retrieval's ranking breaks score ties by corpus order (the ordered pair of
two equal-scored rows is a sublist of the stable sort's output), and rule
evaluation is a pure function of the facts record. -/
theorem analyse_deterministic :
    (∀ (e₁ e₂ : Env) (s₁ s₂ : List ℚ) (p₁ p₂ : Dict),
        e₁ = e₂ → s₁ = s₂ → p₁ = p₂ → analyse e₁ s₁ p₁ = analyse e₂ s₂ p₂)
    ∧ (∀ (rows : List (PolicyClause × ℚ)) (i j : Nat) (hi : i < rows.length)
        (hj : j < rows.length), i < j →
        (rows.get ⟨i, hi⟩).2 = (rows.get ⟨j, hj⟩).2 →
        [rows.get ⟨i, hi⟩, rows.get ⟨j, hj⟩].Sublist (pySort rowScoreDesc rows))
    ∧ (∀ (r : Rule) (p₁ p₂ : Dict), p₁ = p₂ →
        evaluate_rule r p₁ = evaluate_rule r p₂) := by
  refine ⟨fun e₁ e₂ s₁ s₂ p₁ p₂ he hs hp => by rw [he, hs, hp], ?_,
    fun r p₁ p₂ hp => by rw [hp]⟩
  intro rows i j hi hj hij hsc
  apply pair_sublist_pySort
  · unfold rowScoreDesc
    rw [hsc]
    simp
  · exact pair_get_sublist rows i j hi hj hij

def wClauseA : PolicyClause :=
  ⟨"A1", "A", "a", Option.none, Option.none, Option.none, some "A", Option.none⟩

def wClauseB : PolicyClause :=
  ⟨"B1", "B", "b", Option.none, Option.none, Option.none, some "B", Option.none⟩

/-- Witness for C6: two equal-scored rows keep corpus order through the
retrieval sort. -/
theorem analyse_deterministic_witness :
    [((wClauseA, (1 : ℚ))), (wClauseB, (1 : ℚ))].Sublist
      (pySort rowScoreDesc [(wClauseA, 1), (wClauseB, 1)]) := by
  have h := analyse_deterministic.2.1 [(wClauseA, 1), (wClauseB, 1)] 0 1
    (by decide) (by decide) (by decide) (by decide)
  simpa using h

/-! ## Round-robin facts (C7) -/

theorem rrPass_out_extends {α : Type} (k : Nat) :
    ∀ (iters : List (List α)) (out : List α),
      ∃ δ, (rrPass k iters out).2 = out ++ δ := by
  intro iters
  induction iters with
  | nil => intro out; exact ⟨[], by simp [rrPass]⟩
  | cons b bs ih =>
    intro out
    cases b with
    | nil =>
      obtain ⟨δ, hδ⟩ := ih out
      exact ⟨δ, by simpa [rrPass] using hδ⟩
    | cons x xs =>
      by_cases hk : k ≤ out.length + 1
      · refine ⟨[x], ?_⟩
        simp [rrPass, hk]
      · obtain ⟨δ, hδ⟩ := ih (out ++ [x])
        refine ⟨[x] ++ δ, ?_⟩
        simp [rrPass, hk, hδ]

theorem filterMap_head?_eq_nil {α : Type} {bs : List (List α)}
    (h : bs.countP (fun b => !b.isEmpty) = 0) : bs.filterMap List.head? = [] := by
  induction bs with
  | nil => rfl
  | cons b bs ih =>
    rw [List.countP_cons] at h
    cases b with
    | nil =>
      simp only [List.filterMap_cons, List.head?]
      exact ih (by simpa using h)
    | cons x xs => simp at h

/-- When the quota of remaining capacity covers every nonempty queue, one
round-robin pass appends exactly the heads of the queues, in order. -/
theorem rrPass_heads {α : Type} (k : Nat) :
    ∀ (iters : List (List α)) (out : List α),
      out.length + iters.countP (fun b => !b.isEmpty) ≤ k →
      (rrPass k iters out).2 = out ++ iters.filterMap List.head? := by
  intro iters
  induction iters with
  | nil => intro out _; simp [rrPass]
  | cons b bs ih =>
    intro out h
    rw [List.countP_cons] at h
    cases b with
    | nil =>
      have := ih out (by simpa using h)
      simpa [rrPass, List.filterMap_cons, List.head?] using this
    | cons x xs =>
      simp only [List.isEmpty_cons, Bool.not_false, if_pos] at h
      by_cases hk : k ≤ out.length + 1
      · have hbs : bs.countP (fun b => !b.isEmpty) = 0 := by omega
        rw [show (rrPass k ((x :: xs) :: bs) out).2 = out ++ [x] by simp [rrPass, hk]]
        rw [List.filterMap_cons]
        simp only [List.head?]
        rw [filterMap_head?_eq_nil hbs]
      · have hrec := ih (out ++ [x]) (by simp; omega)
        rw [show (rrPass k ((x :: xs) :: bs) out).2 = (rrPass k bs (out ++ [x])).2 by
          simp [rrPass, hk]]
        rw [hrec]
        simp [List.filterMap_cons, List.head?]

theorem rrLoop_extends {α : Type} (k : Nat) :
    ∀ (fuel : Nat) (iters : List (List α)) (out : List α),
      ∃ δ, rrLoop k fuel iters out = out ++ δ := by
  intro fuel
  induction fuel with
  | zero => intro iters out; exact ⟨[], by simp [rrLoop]⟩
  | succ n ih =>
    intro iters out
    unfold rrLoop
    split
    · split
      · obtain ⟨δ1, h1⟩ := rrPass_out_extends k iters out
        obtain ⟨δ2, h2⟩ := ih (rrPass k iters out).1 (rrPass k iters out).2
        exact ⟨δ1 ++ δ2, by rw [h2, h1, List.append_assoc]⟩
      · exact ⟨[], by simp⟩
    · exact ⟨[], by simp⟩

theorem head?_take_pos {α : Type} {n : Nat} (hn : 0 < n) (l : List α) :
    (l.take n).head? = l.head? := by
  cases l with
  | nil => simp
  | cons a t =>
    cases n with
    | zero => omega
    | succ m => simp [List.take_succ_cons]

theorem filter_allowed_none {α : Type} (f : α → String) (l : List α) :
    l.filter (fun r => allowedFw Option.none (f r)) = l := by
  simp [allowedFw]

theorem countP_zip_fw (B : String) :
    ∀ (l : List PolicyClause) (s : List ℚ), s.length = l.length →
      (l.zip s).countP (fun r => fwOfRow r == B)
        = l.countP (fun c => upperStr (c.framework.getD "UNK") == B) := by
  intro l
  induction l with
  | nil => intro s h; simp
  | cons a t ih =>
    intro s h
    cases s with
    | nil => simp at h
    | cons b u =>
      simp only [List.zip_cons_cons, List.countP_cons]
      rw [ih u (by simpa using h)]
      rfl

theorem length_le_two_of_mem_pair {l : List String} {A B : String}
    (hnd : l.Nodup) (hsub : ∀ x ∈ l, x = A ∨ x = B) : l.length ≤ 2 := by
  classical
  have h1 : l.toFinset ⊆ {A, B} := by
    intro x hx
    rcases hsub x (List.mem_toFinset.mp hx) with h | h <;> simp [h]
  have h2 : l.toFinset.card ≤ ({A, B} : Finset String).card := Finset.card_le_card h1
  have h3 : ({A, B} : Finset String).card ≤ 2 := by
    apply le_trans (Finset.card_insert_le _ _)
    simp
  have h4 : l.toFinset.card = l.length := List.toFinset_card_of_nodup hnd
  omega

theorem mem_take_append {α : Type} {x : α} {l δ : List α} {k : Nat}
    (hx : x ∈ l) (hl : l.length ≤ k) : x ∈ (l ++ δ).take k := by
  rw [List.take_append_eq_append_take, List.take_of_length_le hl]
  exact List.mem_append_left _ hx

theorem out1Of_eq (top_k : Nat) (bucketRows : List (PolicyClause × ℚ))
    (hk : 0 < top_k)
    (hle : (itersOf top_k bucketRows).countP (fun b => !b.isEmpty) ≤ top_k) :
    ∃ δ, out1Of top_k bucketRows
      = (itersOf top_k bucketRows).filterMap List.head? ++ δ := by
  unfold out1Of
  by_cases ha : (itersOf top_k bucketRows).any (fun b => !b.isEmpty) = true
  · have h1 : rrLoop top_k ((((itersOf top_k bucketRows).map List.length).sum) + 1)
        (itersOf top_k bucketRows) ([] : List SearchHit)
        = rrLoop top_k (((itersOf top_k bucketRows).map List.length).sum)
            (rrPass top_k (itersOf top_k bucketRows) []).1
            (rrPass top_k (itersOf top_k bucketRows) []).2 := by
      simp only [rrLoop, List.length_nil]
      rw [if_pos hk, if_pos ha]
    rw [h1]
    have hpass : (rrPass top_k (itersOf top_k bucketRows) []).2
        = [] ++ (itersOf top_k bucketRows).filterMap List.head? :=
      rrPass_heads top_k (itersOf top_k bucketRows) [] (by simpa using hle)
    obtain ⟨δ, hδ⟩ := rrLoop_extends top_k (((itersOf top_k bucketRows).map List.length).sum)
      (rrPass top_k (itersOf top_k bucketRows) []).1
      (rrPass top_k (itersOf top_k bucketRows) []).2
    rw [hδ, hpass]
    exact ⟨δ, by simp⟩
  · have hcnt : (itersOf top_k bucketRows).countP (fun b => !b.isEmpty) = 0 := by
      rw [List.countP_eq_zero]
      intro b hb
      intro hpb
      exact ha (List.any_eq_true.mpr ⟨b, hb, hpb⟩)
    refine ⟨[], ?_⟩
    rw [filterMap_head?_eq_nil hcnt]
    simp only [List.nil_append, List.append_nil]
    simp only [rrLoop, List.length_nil]
    rw [if_pos hk, if_neg ha]

theorem interleave_mem_bucket (top_k : Nat) (bucketRows : List (PolicyClause × ℚ))
    (B : String)
    (hfle : (fwsOf bucketRows).length ≤ top_k)
    (hB : B ∈ fwsOf bucketRows)
    (hbne : bucketOf bucketRows B ≠ []) :
    ∃ h ∈ interleave top_k bucketRows, h ∈ bucketOf bucketRows B := by
  have hfpos : 0 < (fwsOf bucketRows).length := List.length_pos.mpr (by
    intro hnil
    rw [hnil] at hB
    exact List.not_mem_nil B hB)
  have hk : 0 < top_k := lt_of_lt_of_le hfpos hfle
  obtain ⟨x, hx⟩ : ∃ x, (bucketOf bucketRows B).head? = some x := by
    cases hbk : bucketOf bucketRows B with
    | nil => exact absurd hbk hbne
    | cons y ys => exact ⟨y, rfl⟩
  have hxB : x ∈ bucketOf bucketRows B := by
    cases hbk : bucketOf bucketRows B with
    | nil => exact absurd hbk hbne
    | cons y ys =>
      rw [hbk] at hx
      simp only [List.head?_cons, Option.some.injEq] at hx
      rw [← hx]
      exact List.mem_cons_self _ _
  have hperpos : 0 < perFwOf top_k bucketRows :=
    lt_of_lt_of_le Nat.zero_lt_one (le_max_left _ _)
  have hin : x ∈ (itersOf top_k bucketRows).filterMap List.head? := by
    apply List.mem_filterMap.mpr
    refine ⟨(bucketOf bucketRows B).take (perFwOf top_k bucketRows), ?_, ?_⟩
    · unfold itersOf
      exact List.mem_map.mpr ⟨B, hB, rfl⟩
    · rw [head?_take_pos hperpos]
      exact hx
  have hcle : (itersOf top_k bucketRows).countP (fun b => !b.isEmpty) ≤ top_k := by
    calc (itersOf top_k bucketRows).countP (fun b => !b.isEmpty)
        ≤ (itersOf top_k bucketRows).length := List.countP_le_length _
      _ = (fwsOf bucketRows).length := by unfold itersOf; rw [List.length_map]
      _ ≤ top_k := hfle
  obtain ⟨δ, hout1⟩ := out1Of_eq top_k bucketRows hk hcle
  have hflen : ((itersOf top_k bucketRows).filterMap List.head?).length ≤ top_k := by
    calc ((itersOf top_k bucketRows).filterMap List.head?).length
        ≤ (itersOf top_k bucketRows).length := List.length_filterMap_le _ _
      _ = (fwsOf bucketRows).length := by unfold itersOf; rw [List.length_map]
      _ ≤ top_k := hfle
  have hfne : (fwsOf bucketRows).isEmpty = false := by
    cases hf : fwsOf bucketRows with
    | nil =>
      rw [hf] at hB
      exact absurd hB (List.not_mem_nil B)
    | cons y ys => rfl
  refine ⟨x, ?_, hxB⟩
  unfold interleave
  rw [if_neg (by simp [hfne])]
  unfold out2Of
  by_cases h2 : (out1Of top_k bucketRows).length < top_k
  · rw [if_pos h2, hout1, List.append_assoc]
    exact mem_take_append hin hflen
  · rw [if_neg h2, hout1]
    exact mem_take_append hin hflen

/-- C7: for a corpus whose clauses span exactly two frameworks A (50
clauses) and B (2 clauses), `retrieve` with `top_k = 10` and no framework
filter returns at least one hit of framework B: the per-framework quota
`max 1 (top_k / framework_count)` and the round-robin interleave let every
framework bucket contribute before backfill. -/
theorem retrieval_diversified (policy : List PolicyClause) (sims : List ℚ)
    (A B : String)
    (hlen : sims.length = policy.length)
    (hAB : A ≠ B)
    (hcover : ∀ c ∈ policy,
      upperStr (c.framework.getD "UNK") = A ∨ upperStr (c.framework.getD "UNK") = B)
    (hcntA : policy.countP (fun c => upperStr (c.framework.getD "UNK") == A) = 50)
    (hcntB : policy.countP (fun c => upperStr (c.framework.getD "UNK") == B) = 2) :
    ∃ h ∈ retrieve policy sims 10 Option.none,
      upperStr (h.clause.framework.getD "UNK") = B := by
  have hpne : policy.isEmpty = false := by
    cases policy with
    | nil => simp at hcntB
    | cons c cs => rfl
  have hretr : retrieve policy sims 10 Option.none
      = interleave 10 (pySort rowScoreDesc (policy.zip sims)) := by
    unfold retrieve
    rw [if_neg (by simp [hpne])]
    show interleave 10
        ((pySort rowScoreDesc
          ((policy.zip sims).filter
            (fun r => allowedFw Option.none (upperStr (r.1.framework.getD ""))))).filter
          (fun r => allowedFw Option.none (fwOfRow r)))
      = interleave 10 (pySort rowScoreDesc (policy.zip sims))
    rw [filter_allowed_none, filter_allowed_none]
  rw [hretr]
  have hperm : (pySort rowScoreDesc (policy.zip sims)).Perm (policy.zip sims) :=
    pySort_perm rowScoreDesc (policy.zip sims)
  have hcntB2 : (pySort rowScoreDesc (policy.zip sims)).countP
      (fun r => fwOfRow r == B) = 2 := by
    rw [hperm.countP_eq, countP_zip_fw B policy sims hlen, hcntB]
  have hBrow : ∃ r ∈ pySort rowScoreDesc (policy.zip sims), (fwOfRow r == B) = true := by
    apply List.countP_pos_iff.mp
    rw [hcntB2]
    norm_num
  have hbne : bucketOf (pySort rowScoreDesc (policy.zip sims)) B ≠ [] := by
    obtain ⟨r, hr, hfr⟩ := hBrow
    intro hcon
    have hmem : hitOfRow r ∈ bucketOf (pySort rowScoreDesc (policy.zip sims)) B := by
      unfold bucketOf
      exact List.mem_map.mpr ⟨r, List.mem_filter.mpr ⟨hr, hfr⟩, rfl⟩
    rw [hcon] at hmem
    exact List.not_mem_nil _ hmem
  have hBfws : B ∈ fwsOf (pySort rowScoreDesc (policy.zip sims)) := by
    unfold fwsOf
    rw [(pySort_perm strLe _).mem_iff, List.mem_dedup]
    obtain ⟨r, hr, hfr⟩ := hBrow
    exact List.mem_map.mpr ⟨r, hr, by simpa using hfr⟩
  have hfle : (fwsOf (pySort rowScoreDesc (policy.zip sims))).length ≤ 10 := by
    unfold fwsOf
    rw [(pySort_perm strLe _).length_eq]
    have hnd : ((pySort rowScoreDesc (policy.zip sims)).map fwOfRow).dedup.Nodup :=
      List.nodup_dedup _
    have hsub : ∀ x ∈ ((pySort rowScoreDesc (policy.zip sims)).map fwOfRow).dedup,
        x = A ∨ x = B := by
      intro x hx
      rw [List.mem_dedup] at hx
      obtain ⟨r, hr, rfl⟩ := List.mem_map.mp hx
      have hrz : r ∈ policy.zip sims := hperm.mem_iff.mp hr
      have hr1 : r.1 ∈ policy := (List.of_mem_zip hrz).1
      exact hcover r.1 hr1
    exact le_trans (length_le_two_of_mem_pair hnd hsub) (by norm_num)
  obtain ⟨h, hmem, hbk⟩ :=
    interleave_mem_bucket 10 (pySort rowScoreDesc (policy.zip sims)) B hfle hBfws hbne
  refine ⟨h, hmem, ?_⟩
  unfold bucketOf at hbk
  obtain ⟨r, hrf, rfl⟩ := List.mem_map.mp hbk
  have hfr := (List.mem_filter.mp hrf).2
  simpa [hitOfRow, fwOfRow] using hfr

/-- A framework-A clause for the diversification witness. -/
def wClA : PolicyClause :=
  ⟨"a1", "A label", "A text", Option.none, Option.none, Option.none,
    some "fwa", Option.none⟩

/-- A framework-B clause for the diversification witness. -/
def wClB : PolicyClause :=
  ⟨"b1", "B label", "B text", Option.none, Option.none, Option.none,
    some "fwb", Option.none⟩

/-- A 52-clause corpus: 50 clauses of framework FWA, 2 of framework FWB. -/
def wPolicy52 : List PolicyClause :=
  List.replicate 50 wClA ++ List.replicate 2 wClB

/-- Flat similarity scores for the 52-clause corpus. -/
def wSims52 : List ℚ := List.replicate 52 0

theorem retrieval_diversified_witness :
    ∃ h ∈ retrieve wPolicy52 wSims52 10 Option.none,
      upperStr (h.clause.framework.getD "UNK") = "FWB" :=
  retrieval_diversified wPolicy52 wSims52 "FWA" "FWB" (by decide) (by decide)
    (by decide) (by decide) (by decide)

end AIUK
